import Mathlib

/-!
Shallow embedding of the SuperArticles backend (api/cleanup.js, api/upload.js,
api/renew.js, api/login.js, api/view.js).

Timestamps are modelled as `Int` milliseconds since the epoch, matching the
JavaScript `Date.now()` values and the ISO strings the code stores (comparison
of ISO timestamps in the database is timestamp order).  The article table is a
`List Article`; a supabase `update ... in ('id', ids)` becomes a map over the
list guarded by membership of the row id in the fetched id list, exactly as
the source performs it.  Supabase calls report failures through returned
error values (never thrown), so each phase of the cleanup sweep takes a
`Faults` record saying which of its fetch/update calls fail; `noFaults` is
the fault-free run.
-/

namespace SuperArticles

inductive Status where
  | active
  | outdated
  | removed
deriving DecidableEq, Repr

structure Article where
  id : Nat
  user_id : Nat
  title : String
  page_name : String
  status : Status
  next_renewal_date : Int
  removal_date : Option Int
  removal_reason : Option String
  outdated_since : Option Int
  last_renewed : Option Int
  renewal_notification_sent : Option Int
  quality_score : Int
  tags : List String
  category : String
  content : String
  created_at : Int
  renewal_recommendations : Option (List String)
  recommendations_generated_at : Option Int
  updated_at : Option Int
  views : Int
deriving DecidableEq, Repr

/-- `24 * 60 * 60 * 1000` milliseconds, the day unit used throughout the code. -/
def msPerDay : Int := 86400000

/-- Which supabase calls of a cleanup run fail (the client reports errors as
values; the code checks some of them and ignores others). -/
structure Faults where
  markFetchFail : Bool
  markUpdateFail : Bool
  removeFetchFail : Bool
  removeUpdateFail : Bool
  recFetchFail : Bool
  recUpdateFailIds : List Nat
  notifyFetchFail : Bool
  notifyUpdateFail : Bool
deriving Repr

def noFaults : Faults :=
  ⟨false, false, false, false, false, [], false, false⟩

/-! ## api/cleanup.js : markOutdatedArticles -/

/-- Selection of `markOutdatedArticles`:
`.lt('next_renewal_date', now).eq('status', 'active')`. -/
def markCond (now : Int) (a : Article) : Bool :=
  decide (a.next_renewal_date < now) && decide (a.status = Status.active)

/-- Row update of `markOutdatedArticles`: status `outdated`, stamp
`outdated_since`, `quality_score := GREATEST(quality_score - 20, 0)`. -/
def markUpd (now : Int) (a : Article) : Article :=
  { a with status := Status.outdated
           outdated_since := some now
           quality_score := max (a.quality_score - 20) 0 }

def markOutdatedArticles (f : Faults) (now : Int) (arts : List Article) :
    Nat × List Article :=
  if f.markFetchFail then (0, arts) else
  let selected := arts.filter (markCond now)
  if selected.isEmpty then (0, arts) else
  let ids : List Nat := selected.map (fun a => a.id)
  if f.markUpdateFail then (0, arts) else
  (ids.length, arts.map fun a => if a.id ∈ ids then markUpd now a else a)

/-! ## api/cleanup.js : removeOldArticles -/

/-- Selection of `removeOldArticles`:
`.lt('next_renewal_date', twentyDaysAgo).eq('status', 'outdated')`. -/
def removeCond (now : Int) (a : Article) : Bool :=
  decide (a.next_renewal_date < now - 20 * msPerDay) &&
    decide (a.status = Status.outdated)

/-- Row update of `removeOldArticles`: soft tombstone. -/
def removeUpd (now : Int) (a : Article) : Article :=
  { a with status := Status.removed
           removal_date := some now
           removal_reason := some "automatic_cleanup_20_days" }

def removeOldArticles (f : Faults) (now : Int) (arts : List Article) :
    Nat × List Article :=
  if f.removeFetchFail then (0, arts) else
  let selected := arts.filter (removeCond now)
  if selected.isEmpty then (0, arts) else
  let ids : List Nat := selected.map (fun a => a.id)
  if f.removeUpdateFail then (0, arts) else
  (ids.length, arts.map fun a => if a.id ∈ ids then removeUpd now a else a)

/-! ## api/cleanup.js : generateRecommendations -/

/-- `Math.floor((now - created_at) / 86400000)`; `Int.fdiv` is floor division. -/
def articleAge (now : Int) (a : Article) : Int :=
  Int.fdiv (now - a.created_at) msPerDay

/-- The phrase list assembled for one article from its age in days, category
and tag count, then `slice(0, 3)`. -/
def recsFor (age : Int) (category : String) (tagCount : Nat) : List String :=
  ((if age > 180 then
      ["Complete rewrite needed - major updates to character history"]
    else if age > 90 then
      ["Update with latest comic series and appearances"]
    else
      ["Add recent developments and fan theories"]) ++
   (if category = "movie" then
      ["Include latest film adaptations and casting news"]
    else if category = "comic" then
      ["Add recent story arcs and crossover events"]
    else []) ++
   (if tagCount < 5 then ["Expand tags for better searchability"] else [])).take 3

/-- Selection of `generateRecommendations`:
`.eq('status', 'outdated').is('renewal_recommendations', null).limit(50)`. -/
def recCond (a : Article) : Bool :=
  decide (a.status = Status.outdated) &&
    decide (a.renewal_recommendations = none)

/-- Row update storing one article's recommendations. -/
def recUpd (now : Int) (recs : List String) (a : Article) : Article :=
  { a with renewal_recommendations := some recs
           recommendations_generated_at := some now }

/-- The `(id, recommendations)` pairs computed for the (at most 50) selected
articles before the per-article update loop. -/
def recListOf (now : Int) (arts : List Article) : List (Nat × List String) :=
  ((arts.filter recCond).take 50).map fun a =>
    (a.id, recsFor (articleAge now a) a.category a.tags.length)

def generateRecommendations (f : Faults) (now : Int) (arts : List Article) :
    Nat × List Article :=
  if f.recFetchFail then (0, arts) else
  let selected := (arts.filter recCond).take 50
  if selected.isEmpty then (0, arts) else
  let recList := selected.map fun a =>
    (a.id, recsFor (articleAge now a) a.category a.tags.length)
  (recList.length,
   recList.foldl
     (fun s p =>
       if p.1 ∈ f.recUpdateFailIds then s
       else s.map fun a => if a.id = p.1 then recUpd now p.2 a else a)
     arts)

/-! ## api/cleanup.js : notifyUsersOfOutdatedArticles -/

/-- Selection of `notifyUsersOfOutdatedArticles`:
`.lt('next_renewal_date', now + 7 days).eq('status', 'active')
 .lt('renewal_notification_sent', now)`; a SQL `NULL < now` does not hold, so
rows never notified are not selected. -/
def notifyCond (now : Int) (a : Article) : Bool :=
  decide (a.next_renewal_date < now + 7 * msPerDay) &&
  decide (a.status = Status.active) &&
  (match a.renewal_notification_sent with
   | some t => decide (t < now)
   | none => false)

def notifyUpd (now : Int) (a : Article) : Article :=
  { a with renewal_notification_sent := some now }

def notifyUsersOfOutdatedArticles (f : Faults) (now : Int)
    (arts : List Article) : List Article :=
  if f.notifyFetchFail then arts else
  let selected := arts.filter (notifyCond now)
  let ids : List Nat := selected.map (fun a => a.id)
  if ids.isEmpty then arts else
  if f.notifyUpdateFail then arts else
  arts.map fun a => if a.id ∈ ids then notifyUpd now a else a

/-! ## api/cleanup.js : handler and manualHandler -/

structure SweepStats where
  outdatedMarked : Nat
  removed : Nat
  recommendationsGenerated : Nat
deriving DecidableEq, Repr

/-- The four phases of the cleanup handler, in source order; the notification
phase only runs when `SMTP_HOST` is configured. -/
def runCleanup (f : Faults) (smtpConfigured : Bool) (now : Int)
    (arts : List Article) : SweepStats × List Article :=
  let m := markOutdatedArticles f now arts
  let r := removeOldArticles f now m.2
  let g := generateRecommendations f now r.2
  let final := if smtpConfigured then notifyUsersOfOutdatedArticles f now g.2
               else g.2
  (⟨m.1, r.1, g.1⟩, final)

/-- The article table after one cleanup run. -/
def sweepState (f : Faults) (smtpConfigured : Bool) (now : Int)
    (arts : List Article) : List Article :=
  (runCleanup f smtpConfigured now arts).2

theorem sweepState_unfold_false (f : Faults) (now : Int) (arts : List Article) :
    sweepState f false now arts
      = (generateRecommendations f now (removeOldArticles f now
          (markOutdatedArticles f now arts).2).2).2 := rfl

theorem sweepState_unfold_true (f : Faults) (now : Int) (arts : List Article) :
    sweepState f true now arts
      = notifyUsersOfOutdatedArticles f now (generateRecommendations f now
          (removeOldArticles f now (markOutdatedArticles f now arts).2).2).2 :=
  rfl

structure Request where
  method : String
  cronSecret : Option String
  adminToken : Option String

structure Env where
  cronSecret : String
  adminToken : String
  smtpConfigured : Bool

structure Response where
  status : Nat
  success : Bool
  stats : Option SweepStats
deriving DecidableEq, Repr

/-- `validateCronRequest`: `req.headers['x-cron-secret'] === CRON_SECRET`. -/
def validateCronRequest (env : Env) (req : Request) : Bool :=
  decide (req.cronSecret = some env.cronSecret)

/-- The cron cleanup endpoint: POST plus valid cron secret, else 403. -/
def handler (f : Faults) (env : Env) (req : Request) (now : Int)
    (arts : List Article) : Response × List Article :=
  if req.method ≠ "POST" ∨ validateCronRequest env req = false then
    (⟨403, false, none⟩, arts)
  else
    let r := runCleanup f env.smtpConfigured now arts
    (⟨200, true, some r.1⟩, r.2)

/-- `manualHandler`: checks the admin token, then calls the main handler. -/
def manualHandler (f : Faults) (env : Env) (req : Request) (now : Int)
    (arts : List Article) : Response × List Article :=
  if req.method ≠ "POST" then (⟨405, false, none⟩, arts)
  else if req.adminToken ≠ some env.adminToken then (⟨403, false, none⟩, arts)
  else handler f env req now arts

/-! ## api/renew.js -/

/-- Fields written by a renewal; `fetchedScore` is the quality score of the
article row fetched before the update (the update stores
`Math.min(article.quality_score + 10, 100)` computed in JavaScript). -/
def renewUpd (now : Int) (fetchedScore : Int) (a : Article) : Article :=
  { a with status := Status.active
           last_renewed := some now
           next_renewal_date := now + 30 * msPerDay
           removal_date := some (now + 30 * msPerDay + 20 * msPerDay)
           quality_score := min (fetchedScore + 10) 100
           updated_at := some now }

inductive RenewResult where
  | ok (nextRenewalDate : Int) (qualityScore : Int)
  | okAll (renewedCount : Nat)
  | errNotFound
  | errRemoved
deriving DecidableEq, Repr

/-- Single-article renewal: fetch by id and owner, reject `removed`, update
the row by id. -/
def renewSingle (now : Int) (uid : Nat) (articleId : Nat)
    (arts : List Article) : RenewResult × List Article :=
  match arts.find? (fun a => decide (a.id = articleId) && decide (a.user_id = uid)) with
  | none => (.errNotFound, arts)
  | some article =>
    if article.status = Status.removed then (.errRemoved, arts)
    else
      (.ok (now + 30 * msPerDay) (min (article.quality_score + 10) 100),
       arts.map fun a =>
         if a.id = articleId then renewUpd now article.quality_score a else a)

/-- Selection of the renew-all path:
`.eq('user_id', uid).in('status', ['active', 'outdated'])`. -/
def renewAllCond (uid : Nat) (a : Article) : Bool :=
  decide (a.user_id = uid) &&
    (decide (a.status = Status.active) || decide (a.status = Status.outdated))

/-- Renew-all: one update per fetched article, each keyed by that article's id
and carrying the score computed from the fetched copy. -/
def renewAll (now : Int) (uid : Nat) (arts : List Article) :
    RenewResult × List Article :=
  let articles := arts.filter (renewAllCond uid)
  (.okAll articles.length,
   articles.foldl
     (fun s b =>
       s.map fun a => if a.id = b.id then renewUpd now b.quality_score a else a)
     arts)

/-! ## api/upload.js : the inserted article row -/

/-- The row inserted by the upload handler (`created_at` is the database
default of the insertion time). -/
def uploadArticle (now : Int) (uid : Nat) (newId : Nat)
    (title pageName content : String) (tags : List String)
    (category : String) : Article :=
  { id := newId
    user_id := uid
    title := title
    page_name := pageName
    status := Status.active
    next_renewal_date := now + 30 * msPerDay
    removal_date := some (now + 30 * msPerDay + 20 * msPerDay)
    removal_reason := none
    outdated_since := none
    last_renewed := some now
    renewal_notification_sent := none
    quality_score := 100
    tags := tags.take 10
    category := category
    content := content
    created_at := now
    renewal_recommendations := none
    recommendations_generated_at := none
    updated_at := none
    views := 0 }

/-! ## api/login.js -/

/-- A user row; `security_codes` is the stored array in which consumed codes
are overwritten with `null`. -/
structure User where
  id : Nat
  email : String
  security_codes : List (Option String)
  next_refresh_allowed : Int
deriving DecidableEq, Repr

inductive LoginResult where
  | success (codesRemaining : Nat)
  | invalidCredentials
  | invalidCode
deriving DecidableEq, Repr

/-- JavaScript `array.indexOf(x)` (first index, or none for `-1`). -/
def indexOfCode (code : String) : List (Option String) → Option Nat
  | [] => none
  | c :: cs =>
    if c = some code then some 0 else (indexOfCode code cs).map (· + 1)

/-- `handleLogin`: find the user by email, locate the code with `indexOf`,
null out that slot, store the updated code list. -/
def handleLogin (users : List User) (email securityCode : String) :
    LoginResult × List User :=
  match users.find? (fun u => decide (u.email = email)) with
  | none => (.invalidCredentials, users)
  | some user =>
    match indexOfCode securityCode user.security_codes with
    | none => (.invalidCode, users)
    | some codeIndex =>
      let updatedCodes := user.security_codes.set codeIndex none
      (.success (updatedCodes.filter (fun c => decide (c ≠ none))).length,
       users.map fun u =>
         if u.id = user.id then { u with security_codes := updatedCodes } else u)

/-! ## api/view.js -/

structure ViewRecord where
  article_id : Nat
  user_id : Nat
  viewed_at : Int
deriving DecidableEq, Repr

/-- Midnight (UTC) of the day containing `now`; the code derives it from
`new Date().toISOString().split('T')[0]`. -/
def dayStart (now : Int) : Int :=
  Int.fdiv now msPerDay * msPerDay

/-- The dedup window of `incrementViewCount`:
`.gte('viewed_at', today+'T00:00:00Z').lt('viewed_at', today+'T23:59:59Z')` —
note the upper bound is 23:59:59.000, one second before midnight. -/
def viewedTodayWindow (now : Int) (articleId userId : Nat)
    (v : ViewRecord) : Bool :=
  decide (v.article_id = articleId) && decide (v.user_id = userId) &&
  decide (dayStart now ≤ v.viewed_at) &&
  decide (v.viewed_at < dayStart now + 86399000)

/-- The `increment_views` RPC (and its manual fallback): `views + 1` on the
article row. -/
def incrementViewsCounter (articleId : Nat) (arts : List Article) :
    List Article :=
  arts.map fun a => if a.id = articleId then { a with views := a.views + 1 } else a

/-- `incrementViewCount`: skip entirely when a view record inside today's
window exists, else insert a record and bump the counter. -/
def incrementViewCount (now : Int) (articleId userId : Nat)
    (views : List ViewRecord) (arts : List Article) :
    List ViewRecord × List Article :=
  match views.find? (viewedTodayWindow now articleId userId) with
  | some _ => (views, arts)
  | none =>
    (views ++ [⟨articleId, userId, now⟩], incrementViewsCounter articleId arts)

/-- The `view` action of the handler: deduplicated count for an authenticated
user, unconditional `increment_views` for an anonymous request. -/
def viewAction (now : Int) (articleId : Nat) (user : Option Nat)
    (views : List ViewRecord) (arts : List Article) :
    List ViewRecord × List Article :=
  match user with
  | some uid => incrementViewCount now articleId uid views arts
  | none => (views, incrementViewsCounter articleId arts)

/-! ## Generic helper lemmas -/

/-- The ids column of the article table. -/
def idsOf (arts : List Article) : List Nat :=
  arts.map (fun a => a.id)

/-- A loop that re-maps the whole table once per update entry equals a single
map applying the entries in order to each row. -/
theorem foldl_map_comm {γ : Type} (skip : γ → Prop) [DecidablePred skip]
    (step : γ → Article → Article) :
    ∀ (bs : List γ) (l : List Article),
      bs.foldl (fun s b => if skip b then s else s.map (step b)) l
        = l.map (fun a => bs.foldl (fun a b => if skip b then a else step b a) a)
  | [], l => by simp
  | b :: bs, l => by
    by_cases hb : skip b
    · simp only [List.foldl_cons, if_pos hb, foldl_map_comm skip step bs l]
    · simp only [List.foldl_cons, if_neg hb,
        foldl_map_comm skip step bs (l.map (step b)), List.map_map]
      rfl

/-- Per-row effect of a loop of by-id updates keyed by `key`. -/
def applyById {γ : Type} (skip : γ → Prop) [DecidablePred skip] (key : γ → Nat)
    (upd : γ → Article → Article) (bs : List γ) (a : Article) : Article :=
  bs.foldl (fun a b => if skip b then a else if a.id = key b then upd b a else a) a

theorem applyById_proj {γ : Type} (skip : γ → Prop) [DecidablePred skip]
    (key : γ → Nat) (upd : γ → Article → Article) {β : Type}
    (proj : Article → β) (h : ∀ b a, proj (upd b a) = proj a) :
    ∀ (bs : List γ) (a : Article), proj (applyById skip key upd bs a) = proj a
  | [], _ => rfl
  | b :: bs, a => by
    show proj (applyById skip key upd bs
      (if skip b then a else if a.id = key b then upd b a else a)) = proj a
    split
    · exact applyById_proj skip key upd proj h bs a
    · split
      · rw [applyById_proj skip key upd proj h bs, h]
      · exact applyById_proj skip key upd proj h bs a

theorem applyById_pres {γ : Type} (skip : γ → Prop) [DecidablePred skip]
    (key : γ → Nat) (upd : γ → Article → Article) (P : Article → Prop) :
    ∀ (bs : List γ), (∀ b ∈ bs, ∀ a, P a → P (upd b a)) →
      ∀ (a : Article), P a → P (applyById skip key upd bs a)
  | [], _, _, ha => ha
  | b :: bs, h, a, ha => by
    show P (applyById skip key upd bs
      (if skip b then a else if a.id = key b then upd b a else a))
    have htail : ∀ b₀ ∈ bs, ∀ a, P a → P (upd b₀ a) :=
      fun b₀ hb₀ => h b₀ (List.mem_cons_of_mem _ hb₀)
    split
    · exact applyById_pres skip key upd P bs htail a ha
    · split
      · exact applyById_pres skip key upd P bs htail _
          (h b (List.mem_cons_self b bs) a ha)
      · exact applyById_pres skip key upd P bs htail a ha

theorem applyById_not_mem {γ : Type} (skip : γ → Prop) [DecidablePred skip]
    (key : γ → Nat) (upd : γ → Article → Article) :
    ∀ (bs : List γ) (a : Article),
      (∀ b ∈ bs, ¬ skip b → key b ≠ a.id) →
      applyById skip key upd bs a = a
  | [], _, _ => rfl
  | b :: bs, a, h => by
    show applyById skip key upd bs
      (if skip b then a else if a.id = key b then upd b a else a) = a
    have htail : ∀ b₀ ∈ bs, ¬ skip b₀ → key b₀ ≠ a.id :=
      fun b₀ hb₀ => h b₀ (List.mem_cons_of_mem _ hb₀)
    split
    · exact applyById_not_mem skip key upd bs a htail
    next hskip =>
      rw [if_neg (fun he => h b (List.mem_cons_self b bs) hskip he.symm)]
      exact applyById_not_mem skip key upd bs a htail

theorem applyById_apply_once {γ : Type} (skip : γ → Prop) [DecidablePred skip]
    (key : γ → Nat) (upd : γ → Article → Article)
    (hid : ∀ b a, (upd b a).id = a.id) :
    ∀ (bs : List γ) (a : Article) (b₀ : γ), b₀ ∈ bs → ¬ skip b₀ →
      key b₀ = a.id → (bs.map key).Nodup →
      (∀ b ∈ bs, key b = a.id → b = b₀) →
      applyById skip key upd bs a = upd b₀ a
  | [], _, _, hmem, _, _, _, _ => absurd hmem (List.not_mem_nil _)
  | b :: bs, a, b₀, hmem, hskip₀, hkey₀, hnd, huniq => by
    show applyById skip key upd bs
      (if skip b then a else if a.id = key b then upd b a else a) = upd b₀ a
    by_cases hkb : key b = a.id
    · have hbb₀ : b = b₀ := huniq b (List.mem_cons_self b bs) hkb
      subst hbb₀
      rw [if_neg hskip₀, if_pos hkb.symm]
      apply applyById_not_mem
      intro b' hb' _
      have hb'key : key b' ∈ bs.map key := List.mem_map.mpr ⟨b', hb', rfl⟩
      have : key b ∉ bs.map key := (List.nodup_cons.mp hnd).1
      rw [hid, ← hkb]
      exact fun he => this (he ▸ hb'key)
    · have hb₀bs : b₀ ∈ bs := by
        rcases List.mem_cons.mp hmem with he | hbs
        · exact absurd (he ▸ hkey₀) hkb
        · exact hbs
      have htail := applyById_apply_once skip key upd hid bs _ b₀ hb₀bs hskip₀
        hkey₀ (List.nodup_cons.mp hnd).2
        (fun b' hb' hk => huniq b' (List.mem_cons_of_mem _ hb') hk)
      split
      · exact htail
      · rw [if_neg (fun he => hkb he.symm)]
        exact htail

/-- Remaining rec-loop steps never erase stored recommendations. -/
theorem applyById_recs_some (now : Int) (skip : Nat × List String → Prop)
    [DecidablePred skip] :
    ∀ (bs : List (Nat × List String)) (a : Article),
      a.renewal_recommendations ≠ none →
      (applyById skip Prod.fst (fun p x => recUpd now p.2 x)
          bs a).renewal_recommendations ≠ none := by
  intro bs a ha
  apply applyById_pres skip Prod.fst _ (fun x => x.renewal_recommendations ≠ none)
  · intro b _ x _
    simp [recUpd]
  · exact ha

/-- An article whose id is carried (un-skipped) by the rec loop ends up with
stored recommendations. -/
theorem applyById_recs_filled (now : Int) (skip : Nat × List String → Prop)
    [DecidablePred skip] :
    ∀ (bs : List (Nat × List String)) (a : Article) (p : Nat × List String),
      p ∈ bs → ¬ skip p → p.1 = a.id →
      (applyById skip Prod.fst (fun p x => recUpd now p.2 x)
          bs a).renewal_recommendations ≠ none
  | [], _, _, hmem, _, _ => absurd hmem (List.not_mem_nil _)
  | q :: bs, a, p, hmem, hskip, hkey => by
    show (applyById skip Prod.fst _ bs
      (if skip q then a else if a.id = q.1 then recUpd now q.2 a else a)
      ).renewal_recommendations ≠ none
    by_cases hq : skip q
    · rw [if_pos hq]
      have hpbs : p ∈ bs := by
        rcases List.mem_cons.mp hmem with he | hbs
        · exact absurd (he ▸ hq) hskip
        · exact hbs
      exact applyById_recs_filled now skip bs a p hpbs hskip hkey
    · rw [if_neg hq]
      by_cases hqa : a.id = q.1
      · rw [if_pos hqa]
        exact applyById_recs_some now skip bs _ (by simp [recUpd])
      · rw [if_neg hqa]
        have hpbs : p ∈ bs := by
          rcases List.mem_cons.mp hmem with he | hbs
          · exact absurd (he ▸ hkey).symm hqa
          · exact hbs
        exact applyById_recs_filled now skip bs a p hpbs hskip hkey

/-- Unconditional version of `foldl_map_comm` (for the renew-all loop). -/
theorem foldl_map_comm' {γ : Type} (step : γ → Article → Article) :
    ∀ (bs : List γ) (l : List Article),
      bs.foldl (fun s b => s.map (step b)) l
        = l.map (fun a => bs.foldl (fun a b => step b a) a)
  | [], l => by simp
  | b :: bs, l => by
    simp only [List.foldl_cons, foldl_map_comm' step bs (l.map (step b)),
      List.map_map]
    rfl

/-- Per-row effect of the renew-all loop. -/
def applyByKey {γ : Type} (key : γ → Nat) (upd : γ → Article → Article)
    (bs : List γ) (a : Article) : Article :=
  bs.foldl (fun a b => if a.id = key b then upd b a else a) a

theorem applyByKey_pres {γ : Type} (key : γ → Nat)
    (upd : γ → Article → Article) (P : Article → Prop) :
    ∀ (bs : List γ), (∀ b ∈ bs, ∀ a, P a → P (upd b a)) →
      ∀ (a : Article), P a → P (applyByKey key upd bs a)
  | [], _, _, ha => ha
  | b :: bs, h, a, ha => by
    show P (applyByKey key upd bs (if a.id = key b then upd b a else a))
    have htail : ∀ b₀ ∈ bs, ∀ a, P a → P (upd b₀ a) :=
      fun b₀ hb₀ => h b₀ (List.mem_cons_of_mem _ hb₀)
    split
    · exact applyByKey_pres key upd P bs htail _
        (h b (List.mem_cons_self b bs) a ha)
    · exact applyByKey_pres key upd P bs htail a ha

theorem applyByKey_proj {γ : Type} (key : γ → Nat)
    (upd : γ → Article → Article) {β : Type} (proj : Article → β)
    (h : ∀ b a, proj (upd b a) = proj a) :
    ∀ (bs : List γ) (a : Article), proj (applyByKey key upd bs a) = proj a
  | [], _ => rfl
  | b :: bs, a => by
    show proj (applyByKey key upd bs (if a.id = key b then upd b a else a))
      = proj a
    split
    · rw [applyByKey_proj key upd proj h bs, h]
    · exact applyByKey_proj key upd proj h bs a

theorem applyByKey_not_mem {γ : Type} (key : γ → Nat)
    (upd : γ → Article → Article) :
    ∀ (bs : List γ) (a : Article), (∀ b ∈ bs, key b ≠ a.id) →
      applyByKey key upd bs a = a
  | [], _, _ => rfl
  | b :: bs, a, h => by
    show applyByKey key upd bs (if a.id = key b then upd b a else a) = a
    rw [if_neg (fun he => h b (List.mem_cons_self b bs) he.symm)]
    exact applyByKey_not_mem key upd bs a
      (fun b₀ hb₀ => h b₀ (List.mem_cons_of_mem _ hb₀))

theorem applyByKey_apply_once {γ : Type} (key : γ → Nat)
    (upd : γ → Article → Article) (hid : ∀ b a, (upd b a).id = a.id) :
    ∀ (bs : List γ) (a : Article) (b₀ : γ), b₀ ∈ bs → key b₀ = a.id →
      (bs.map key).Nodup → (∀ b ∈ bs, key b = a.id → b = b₀) →
      applyByKey key upd bs a = upd b₀ a
  | [], _, _, hmem, _, _, _ => absurd hmem (List.not_mem_nil _)
  | b :: bs, a, b₀, hmem, hkey₀, hnd, huniq => by
    show applyByKey key upd bs (if a.id = key b then upd b a else a) = upd b₀ a
    by_cases hkb : key b = a.id
    · have hbb₀ : b = b₀ := huniq b (List.mem_cons_self b bs) hkb
      subst hbb₀
      rw [if_pos hkb.symm]
      apply applyByKey_not_mem
      intro b' hb' he
      have hb'key : key b' ∈ bs.map key := List.mem_map.mpr ⟨b', hb', rfl⟩
      have hnin : key b ∉ bs.map key := (List.nodup_cons.mp hnd).1
      rw [hid, ← hkb] at he
      exact hnin (he ▸ hb'key)
    · have hb₀bs : b₀ ∈ bs := by
        rcases List.mem_cons.mp hmem with he | hbs
        · exact absurd (he ▸ hkey₀) hkb
        · exact hbs
      rw [if_neg (fun he => hkb he.symm)]
      exact applyByKey_apply_once key upd hid bs a b₀ hb₀bs hkey₀
        (List.nodup_cons.mp hnd).2
        (fun b' hb' hk => huniq b' (List.mem_cons_of_mem _ hb') hk)

/-! ## Phase bridging lemmas

With pairwise-distinct row ids (the database primary key), fetching the rows
matching a condition and then updating by id is the same as updating exactly
the rows matching the condition. -/

/-- Update exactly the rows satisfying `cond`. -/
def condMap (cond : Article → Bool) (upd : Article → Article)
    (arts : List Article) : List Article :=
  arts.map fun a => if cond a then upd a else a

theorem condMap_of_filter_nil (cond : Article → Bool) (upd : Article → Article)
    (arts : List Article) (h : arts.filter cond = []) :
    condMap cond upd arts = arts := by
  unfold condMap
  have h' := List.filter_eq_nil_iff.mp h
  have : ∀ a ∈ arts, (if cond a then upd a else a) = a :=
    fun a ha => if_neg (h' a ha)
  rw [List.map_congr_left this]
  simp

theorem map_mem_ids_eq (cond : Article → Bool) (upd : Article → Article)
    (arts : List Article) (h : (idsOf arts).Nodup) :
    (arts.map fun a =>
        if a.id ∈ (arts.filter cond).map (fun a => a.id) then upd a else a)
      = condMap cond upd arts := by
  apply List.map_congr_left
  intro a ha
  have hmem : (a.id ∈ (arts.filter cond).map (fun a => a.id)) ↔ cond a = true := by
    constructor
    · intro hin
      rcases List.mem_map.mp hin with ⟨b, hb, hba⟩
      have hbarts := (List.mem_filter.mp hb).1
      have hbc := (List.mem_filter.mp hb).2
      have hba' : b = a := List.inj_on_of_nodup_map h hbarts ha hba
      exact hba' ▸ hbc
    · intro hc
      exact List.mem_map.mpr ⟨a, List.mem_filter.mpr ⟨ha, hc⟩, rfl⟩
  by_cases hc : cond a = true
  · rw [if_pos (hmem.mpr hc), if_pos hc]
  · rw [if_neg (fun hx => hc (hmem.mp hx)), if_neg hc]

theorem idsOf_map (f : Article → Article) (hid : ∀ a, (f a).id = a.id)
    (arts : List Article) : idsOf (arts.map f) = idsOf arts := by
  unfold idsOf
  rw [List.map_map]
  exact List.map_congr_left fun a _ => hid a

theorem idsOf_condMap (cond : Article → Bool) (upd : Article → Article)
    (hid : ∀ a, (upd a).id = a.id) (arts : List Article) :
    idsOf (condMap cond upd arts) = idsOf arts := by
  unfold condMap
  apply idsOf_map
  intro a
  split
  · exact hid a
  · rfl

theorem markUpd_id (now : Int) (a : Article) : (markUpd now a).id = a.id := rfl
theorem removeUpd_id (now : Int) (a : Article) : (removeUpd now a).id = a.id := rfl
theorem recUpd_id (now : Int) (r : List String) (a : Article) :
    (recUpd now r a).id = a.id := rfl
theorem notifyUpd_id (now : Int) (a : Article) : (notifyUpd now a).id = a.id := rfl
theorem renewUpd_id (now s : Int) (a : Article) : (renewUpd now s a).id = a.id := rfl

theorem mark_state_eq (now : Int) (arts : List Article)
    (h : (idsOf arts).Nodup) :
    (markOutdatedArticles noFaults now arts).2
      = condMap (markCond now) (markUpd now) arts := by
  unfold markOutdatedArticles noFaults
  simp only [Bool.false_eq_true, if_false]
  by_cases hsel : (arts.filter (markCond now)).isEmpty = true
  · rw [if_pos hsel]
    exact (condMap_of_filter_nil _ _ _ (List.isEmpty_iff.mp hsel)).symm
  · rw [if_neg hsel]
    exact map_mem_ids_eq _ _ _ h

theorem remove_state_eq (now : Int) (arts : List Article)
    (h : (idsOf arts).Nodup) :
    (removeOldArticles noFaults now arts).2
      = condMap (removeCond now) (removeUpd now) arts := by
  unfold removeOldArticles noFaults
  simp only [Bool.false_eq_true, if_false]
  by_cases hsel : (arts.filter (removeCond now)).isEmpty = true
  · rw [if_pos hsel]
    exact (condMap_of_filter_nil _ _ _ (List.isEmpty_iff.mp hsel)).symm
  · rw [if_neg hsel]
    exact map_mem_ids_eq _ _ _ h

theorem notify_state_eq (now : Int) (arts : List Article)
    (h : (idsOf arts).Nodup) :
    notifyUsersOfOutdatedArticles noFaults now arts
      = condMap (notifyCond now) (notifyUpd now) arts := by
  unfold notifyUsersOfOutdatedArticles noFaults
  simp only [Bool.false_eq_true, if_false]
  by_cases hsel : ((arts.filter (notifyCond now)).map (fun a => a.id)).isEmpty = true
  · rw [if_pos hsel]
    have : arts.filter (notifyCond now) = [] := by
      have := List.isEmpty_iff.mp hsel
      cases he : arts.filter (notifyCond now) with
      | nil => rfl
      | cons x xs => rw [he] at this; simp at this
    exact (condMap_of_filter_nil _ _ _ this).symm
  · rw [if_neg hsel]
    exact map_mem_ids_eq _ _ _ h

/-- The recommendation phase, seen per row: each selected article's
`(id, recommendations)` entry is replayed against the table. -/
theorem gen_state_eq (f : Faults) (now : Int) (arts : List Article)
    (hf : f.recFetchFail = false) :
    (generateRecommendations f now arts).2
      = arts.map (applyById (fun p => p.1 ∈ f.recUpdateFailIds) Prod.fst
          (fun p x => recUpd now p.2 x) (recListOf now arts)) := by
  unfold generateRecommendations recListOf
  simp only [hf, Bool.false_eq_true, if_false]
  by_cases hsel : ((arts.filter recCond).take 50).isEmpty = true
  · rw [if_pos hsel, List.isEmpty_iff.mp hsel]
    simp only [List.map_nil]
    have hcongr : ∀ a ∈ arts,
        applyById (fun p => p.1 ∈ f.recUpdateFailIds) Prod.fst
          (fun p x => recUpd now p.2 x) [] a = id a := fun a _ => rfl
    rw [List.map_congr_left hcongr, List.map_id]
  · rw [if_neg hsel]
    exact foldl_map_comm _ _ _ _

theorem mark_idsOf (f : Faults) (now : Int) (arts : List Article) :
    idsOf (markOutdatedArticles f now arts).2 = idsOf arts := by
  unfold markOutdatedArticles
  dsimp only
  split
  · rfl
  split
  · rfl
  split
  · rfl
  exact idsOf_map _ (fun a => by split <;> rfl) arts

theorem remove_idsOf (f : Faults) (now : Int) (arts : List Article) :
    idsOf (removeOldArticles f now arts).2 = idsOf arts := by
  unfold removeOldArticles
  dsimp only
  split
  · rfl
  split
  · rfl
  split
  · rfl
  exact idsOf_map _ (fun a => by split <;> rfl) arts

theorem gen_idsOf (f : Faults) (now : Int) (arts : List Article) :
    idsOf (generateRecommendations f now arts).2 = idsOf arts := by
  unfold generateRecommendations
  dsimp only
  split
  · rfl
  split
  · rfl
  rw [foldl_map_comm (fun p : Nat × List String => p.1 ∈ f.recUpdateFailIds)
    (fun (p : Nat × List String) (x : Article) =>
      if x.id = p.1 then recUpd now p.2 x else x)]
  exact idsOf_map _
    (fun a => applyById_proj (fun p => p.1 ∈ f.recUpdateFailIds) Prod.fst
      (fun p x => recUpd now p.2 x) (fun x => x.id) (fun b x => rfl) _ a) arts

theorem notify_idsOf (f : Faults) (now : Int) (arts : List Article) :
    idsOf (notifyUsersOfOutdatedArticles f now arts) = idsOf arts := by
  unfold notifyUsersOfOutdatedArticles
  dsimp only
  split
  · rfl
  split
  · rfl
  split
  · rfl
  exact idsOf_map _ (fun a => by split <;> rfl) arts

theorem sweep_idsOf (f : Faults) (smtp : Bool) (now : Int)
    (arts : List Article) : idsOf (sweepState f smtp now arts) = idsOf arts := by
  cases smtp
  · show idsOf (generateRecommendations f now
      (removeOldArticles f now (markOutdatedArticles f now arts).2).2).2 = idsOf arts
    rw [gen_idsOf, remove_idsOf, mark_idsOf]
  · show idsOf (notifyUsersOfOutdatedArticles f now (generateRecommendations f now
      (removeOldArticles f now (markOutdatedArticles f now arts).2).2).2) = idsOf arts
    rw [notify_idsOf, gen_idsOf, remove_idsOf, mark_idsOf]

/-! ## C1 : quality_score stays in [0, 100] -/

/-- `quality_score` lies within `[0, 100]`. -/
def qOK (a : Article) : Prop :=
  0 ≤ a.quality_score ∧ a.quality_score ≤ 100

instance : DecidablePred qOK := fun a => by unfold qOK; infer_instance

/-- The renew-all loop, seen per row. -/
theorem renewAll_state_eq (now : Int) (uid : Nat) (arts : List Article) :
    (renewAll now uid arts).2
      = arts.map (applyByKey (fun b => b.id)
          (fun b a => renewUpd now b.quality_score a)
          (arts.filter (renewAllCond uid))) := by
  unfold renewAll
  dsimp only
  exact foldl_map_comm' _ _ _

theorem mark_qOK (f : Faults) (now : Int) (arts : List Article)
    (hq : ∀ a ∈ arts, qOK a) :
    ∀ b ∈ (markOutdatedArticles f now arts).2, qOK b := by
  unfold markOutdatedArticles
  dsimp only
  split
  · exact hq
  split
  · exact hq
  split
  · exact hq
  intro b hb
  rcases List.mem_map.mp hb with ⟨a, ha, rfl⟩
  obtain ⟨h0, h1⟩ := hq a ha
  split
  · exact ⟨le_max_right _ _, max_le (by omega) (by omega)⟩
  · exact ⟨h0, h1⟩

theorem remove_qOK (f : Faults) (now : Int) (arts : List Article)
    (hq : ∀ a ∈ arts, qOK a) :
    ∀ b ∈ (removeOldArticles f now arts).2, qOK b := by
  unfold removeOldArticles
  dsimp only
  split
  · exact hq
  split
  · exact hq
  split
  · exact hq
  intro b hb
  rcases List.mem_map.mp hb with ⟨a, ha, rfl⟩
  split
  · exact hq a ha
  · exact hq a ha

theorem gen_qOK (f : Faults) (now : Int) (arts : List Article)
    (hq : ∀ a ∈ arts, qOK a) :
    ∀ b ∈ (generateRecommendations f now arts).2, qOK b := by
  unfold generateRecommendations
  dsimp only
  split
  · exact hq
  split
  · exact hq
  rw [foldl_map_comm (fun p : Nat × List String => p.1 ∈ f.recUpdateFailIds)
    (fun (p : Nat × List String) (x : Article) =>
      if x.id = p.1 then recUpd now p.2 x else x)]
  intro b hb
  rcases List.mem_map.mp hb with ⟨a, ha, rfl⟩
  exact applyById_pres (fun p : Nat × List String => p.1 ∈ f.recUpdateFailIds)
    Prod.fst (fun p x => recUpd now p.2 x) qOK _
    (fun p _ x hx => hx) a (hq a ha)

theorem notify_qOK (f : Faults) (now : Int) (arts : List Article)
    (hq : ∀ a ∈ arts, qOK a) :
    ∀ b ∈ notifyUsersOfOutdatedArticles f now arts, qOK b := by
  unfold notifyUsersOfOutdatedArticles
  dsimp only
  split
  · exact hq
  split
  · exact hq
  split
  · exact hq
  intro b hb
  rcases List.mem_map.mp hb with ⟨a, ha, rfl⟩
  split
  · exact hq a ha
  · exact hq a ha

theorem sweep_qOK (f : Faults) (smtp : Bool) (now : Int) (arts : List Article)
    (hq : ∀ a ∈ arts, qOK a) : ∀ b ∈ sweepState f smtp now arts, qOK b := by
  cases smtp
  · show ∀ b ∈ (generateRecommendations f now
      (removeOldArticles f now (markOutdatedArticles f now arts).2).2).2, qOK b
    exact gen_qOK _ _ _ (remove_qOK _ _ _ (mark_qOK _ _ _ hq))
  · show ∀ b ∈ notifyUsersOfOutdatedArticles f now (generateRecommendations f now
      (removeOldArticles f now (markOutdatedArticles f now arts).2).2).2, qOK b
    exact notify_qOK _ _ _ (gen_qOK _ _ _ (remove_qOK _ _ _ (mark_qOK _ _ _ hq)))

theorem renewSingle_qOK (now : Int) (uid articleId : Nat)
    (arts : List Article) (hq : ∀ a ∈ arts, qOK a) :
    ∀ b ∈ (renewSingle now uid articleId arts).2, qOK b := by
  intro b hb
  unfold renewSingle at hb
  cases hfind : arts.find?
      (fun a => decide (a.id = articleId) && decide (a.user_id = uid)) with
  | none =>
    rw [hfind] at hb
    exact hq b hb
  | some article =>
    rw [hfind] at hb
    dsimp only at hb
    by_cases hst : article.status = Status.removed
    · rw [if_pos hst] at hb
      exact hq b hb
    · rw [if_neg hst] at hb
      rcases List.mem_map.mp hb with ⟨a, ha, rfl⟩
      obtain ⟨h0, h1⟩ := hq article (List.mem_of_find?_eq_some hfind)
      split
      · exact ⟨le_min (by omega) (by omega), min_le_right _ _⟩
      · exact hq a ha

theorem renewAll_qOK (now : Int) (uid : Nat) (arts : List Article)
    (hq : ∀ a ∈ arts, qOK a) : ∀ b ∈ (renewAll now uid arts).2, qOK b := by
  intro b hb
  rw [renewAll_state_eq] at hb
  rcases List.mem_map.mp hb with ⟨a, ha, rfl⟩
  apply applyByKey_pres _ _ qOK _ _ a (hq a ha)
  intro b₀ hb₀ x _
  obtain ⟨h0, h1⟩ := hq b₀ (List.mem_filter.mp hb₀).1
  exact ⟨le_min (by omega) (by omega), min_le_right _ _⟩

/-- **C1**: for every article, `quality_score` stays within `[0, 100]` under
every lifecycle operation: creation sets it to 100, the sweep's outdated
marking decreases it by 20 floored at 0, and renewal increases it by 10
capped at 100; starting from a table whose scores are all in range, neither
the daily sweep (under any fault pattern) nor single renewal nor renew-all
produces a value outside `[0, 100]`. -/
theorem c1_quality_score_bounded (f : Faults) (now : Int)
    (uid newId articleId : Nat) (smtp : Bool)
    (title pageName content : String) (tags : List String) (category : String)
    (arts : List Article) (hq : ∀ a ∈ arts, qOK a) :
    ((uploadArticle now uid newId title pageName content tags
        category).quality_score = 100
      ∧ qOK (uploadArticle now uid newId title pageName content tags category))
    ∧ (∀ b ∈ sweepState f smtp now arts, qOK b)
    ∧ (∀ b ∈ (renewSingle now uid articleId arts).2, qOK b)
    ∧ (∀ b ∈ (renewAll now uid arts).2, qOK b) := by
  refine ⟨⟨rfl, ⟨by norm_num [uploadArticle], by norm_num [uploadArticle]⟩⟩,
    ?_, ?_, ?_⟩
  · exact sweep_qOK f smtp now arts hq
  · exact renewSingle_qOK now uid articleId arts hq
  · exact renewAll_qOK now uid arts hq

/-- A concrete active article with mid-range quality score. -/
def exActive : Article :=
  { id := 1, user_id := 2, title := "t", page_name := "p",
    status := Status.active, next_renewal_date := 0, removal_date := none,
    removal_reason := none, outdated_since := none, last_renewed := none,
    renewal_notification_sent := none, quality_score := 10, tags := [],
    category := "general", content := "", created_at := 0,
    renewal_recommendations := none, recommendations_generated_at := none,
    updated_at := none, views := 0 }

/-- Witness for C1 at a concrete table. -/
theorem c1_quality_score_bounded_witness :
    (∀ a ∈ [exActive], qOK a)
    ∧ (((uploadArticle 5 2 9 "t" "p" "c" [] "general").quality_score = 100
        ∧ qOK (uploadArticle 5 2 9 "t" "p" "c" [] "general"))
      ∧ (∀ b ∈ sweepState noFaults true 5 [exActive], qOK b)
      ∧ (∀ b ∈ (renewSingle 5 2 1 [exActive]).2, qOK b)
      ∧ (∀ b ∈ (renewAll 5 2 [exActive]).2, qOK b)) :=
  ⟨by decide,
   c1_quality_score_bounded noFaults 5 2 9 1 true "t" "p" "c" [] "general"
     [exActive] (by decide)⟩

/-! ## C3 : sweep thresholds -/

/-- Marking then removal, composed per row. -/
def sweepMid (now : Int) (arts : List Article) : List Article :=
  condMap (removeCond now) (removeUpd now)
    (condMap (markCond now) (markUpd now) arts)

/-- The whole fault-free sweep minus the notification phase, per row. -/
def sweepCore (now : Int) (arts : List Article) : List Article :=
  (sweepMid now arts).map
    (applyById (fun p : Nat × List String => p.1 ∈ ([] : List Nat))
      Prod.fst (fun p x => recUpd now p.2 x) (recListOf now (sweepMid now arts)))

theorem sweepMid_idsOf (now : Int) (arts : List Article) :
    idsOf (sweepMid now arts) = idsOf arts := by
  unfold sweepMid
  rw [idsOf_condMap _ _ (removeUpd_id now), idsOf_condMap _ _ (markUpd_id now)]

theorem sweepCore_idsOf (now : Int) (arts : List Article) :
    idsOf (sweepCore now arts) = idsOf arts := by
  unfold sweepCore
  rw [idsOf_map (applyById (fun p : Nat × List String => p.1 ∈ ([] : List Nat))
      Prod.fst (fun p x => recUpd now p.2 x) (recListOf now (sweepMid now arts)))
    (fun a => applyById_proj (fun p : Nat × List String => p.1 ∈ ([] : List Nat))
      Prod.fst (fun p x => recUpd now p.2 x) (fun x => x.id)
      (fun b x => rfl) _ a),
    sweepMid_idsOf]

/-- The fault-free sweep decomposes into per-row passes. -/
theorem sweep_state_decomp (smtp : Bool) (now : Int) (arts : List Article)
    (h : (idsOf arts).Nodup) :
    sweepState noFaults smtp now arts =
      if smtp then condMap (notifyCond now) (notifyUpd now) (sweepCore now arts)
      else sweepCore now arts := by
  have hnd1 : (idsOf (condMap (markCond now) (markUpd now) arts)).Nodup := by
    rwa [idsOf_condMap _ _ (markUpd_id now)]
  have hnd3 : (idsOf (sweepCore now arts)).Nodup := by
    rwa [sweepCore_idsOf]
  cases smtp
  · show (generateRecommendations noFaults now (removeOldArticles noFaults now
      (markOutdatedArticles noFaults now arts).2).2).2 = sweepCore now arts
    rw [mark_state_eq now arts h, remove_state_eq now _ hnd1,
      gen_state_eq noFaults now _ rfl]
    rfl
  · show notifyUsersOfOutdatedArticles noFaults now
      (generateRecommendations noFaults now (removeOldArticles noFaults now
        (markOutdatedArticles noFaults now arts).2).2).2
      = condMap (notifyCond now) (notifyUpd now) (sweepCore now arts)
    rw [mark_state_eq now arts h, remove_state_eq now _ hnd1,
      gen_state_eq noFaults now _ rfl]
    have hcore : (condMap (removeCond now) (removeUpd now)
        (condMap (markCond now) (markUpd now) arts)).map
        (applyById (fun p => p.1 ∈ noFaults.recUpdateFailIds) Prod.fst
          (fun p x => recUpd now p.2 x)
          (recListOf now (condMap (removeCond now) (removeUpd now)
            (condMap (markCond now) (markUpd now) arts))))
        = sweepCore now arts := rfl
    rw [hcore]
    exact notify_state_eq now _ hnd3

/-- Status of a row after marking then removal, against the thresholds. -/
theorem mid_status_removed_iff (now : Int) (a : Article)
    (hst : a.status = Status.active ∨ a.status = Status.outdated) :
    ((if removeCond now (if markCond now a then markUpd now a else a)
        then removeUpd now (if markCond now a then markUpd now a else a)
        else if markCond now a then markUpd now a else a).status
      = Status.removed)
    ↔ a.next_renewal_date < now - 20 * msPerDay := by
  have hms : (0 : Int) < 20 * msPerDay := by norm_num [msPerDay]
  by_cases h1 : markCond now a = true
  · rw [if_pos h1]
    by_cases h2 : removeCond now (markUpd now a) = true
    · rw [if_pos h2]
      have hlt : a.next_renewal_date < now - 20 * msPerDay := by
        unfold removeCond markUpd at h2
        simp only [Bool.and_eq_true, decide_eq_true_eq] at h2
        exact h2.1
      exact ⟨fun _ => hlt, fun _ => rfl⟩
    · rw [if_neg h2]
      constructor
      · intro hc
        exact absurd hc (by simp [markUpd])
      · intro hlt
        exfalso
        apply h2
        unfold removeCond markUpd
        simp only [Bool.and_eq_true, decide_eq_true_eq]
        exact ⟨hlt, trivial⟩
  · rw [if_neg h1]
    by_cases h2 : removeCond now a = true
    · rw [if_pos h2]
      have hlt : a.next_renewal_date < now - 20 * msPerDay := by
        unfold removeCond at h2
        simp only [Bool.and_eq_true, decide_eq_true_eq] at h2
        exact h2.1
      exact ⟨fun _ => hlt, fun _ => rfl⟩
    · rw [if_neg h2]
      constructor
      · intro hc
        rcases hst with hA | hO
        · exact absurd (hA.symm.trans hc) (by decide)
        · exact absurd (hO.symm.trans hc) (by decide)
      · intro hlt
        exfalso
        rcases hst with hA | hO
        · apply h1
          unfold markCond
          simp only [Bool.and_eq_true, decide_eq_true_eq]
          exact ⟨by omega, hA⟩
        · apply h2
          unfold removeCond
          simp only [Bool.and_eq_true, decide_eq_true_eq]
          exact ⟨hlt, hO⟩

/-- **C3**: for every article with `next_renewal_date = T`, the sweep's
marking phase turns an `active` article `outdated` iff `T < now` (applying
exactly `markUpd`, namely `quality_score := max (quality_score - 20) 0` and
`outdated_since := now`), and the full sweep leaves an `active` or `outdated`
article with status `removed` iff `T + 20 days < now`. -/
theorem c3_sweep_thresholds (now : Int) (smtp : Bool) (arts : List Article)
    (i : Nat) (a : Article) (hnd : (idsOf arts).Nodup)
    (ha : arts[i]? = some a) :
    (a.status = Status.active →
      ((markOutdatedArticles noFaults now arts).2[i]?
          = some (if a.next_renewal_date < now then markUpd now a else a))
      ∧ ((∃ b, (markOutdatedArticles noFaults now arts).2[i]? = some b
            ∧ b.status = Status.outdated) ↔ a.next_renewal_date < now))
    ∧ ((a.status = Status.active ∨ a.status = Status.outdated) →
      ((∃ b, (sweepState noFaults smtp now arts)[i]? = some b
          ∧ b.status = Status.removed)
        ↔ a.next_renewal_date + 20 * msPerDay < now)) := by
  constructor
  · intro hst
    have hmark : (markOutdatedArticles noFaults now arts).2[i]?
        = some (if markCond now a then markUpd now a else a) := by
      rw [mark_state_eq now arts hnd]
      unfold condMap
      rw [List.getElem?_map, ha]
      rfl
    have hcond : markCond now a = true ↔ a.next_renewal_date < now := by
      unfold markCond
      simp [hst]
    constructor
    · rw [hmark]
      by_cases hlt : a.next_renewal_date < now
      · rw [if_pos (hcond.mpr hlt), if_pos hlt]
      · rw [if_neg (fun hx => hlt (hcond.mp hx)), if_neg hlt]
    · constructor
      · rintro ⟨b, hb, hbs⟩
        rw [hmark] at hb
        by_cases hc : markCond now a = true
        · exact hcond.mp hc
        · rw [if_neg hc] at hb
          cases Option.some.inj hb
          exact absurd (hst.symm.trans hbs) (by decide)
      · intro hlt
        refine ⟨markUpd now a, ?_, rfl⟩
        rw [hmark, if_pos (hcond.mpr hlt)]
  · intro hst
    have hdecomp := sweep_state_decomp smtp now arts hnd
    have hmid : (sweepMid now arts)[i]?
        = some (if removeCond now (if markCond now a then markUpd now a else a)
            then removeUpd now (if markCond now a then markUpd now a else a)
            else if markCond now a then markUpd now a else a) := by
      unfold sweepMid condMap
      rw [List.getElem?_map, List.getElem?_map, ha]
      rfl
    obtain ⟨c, hc, hcs⟩ : ∃ c, (sweepCore now arts)[i]? = some c
        ∧ c.status = (if removeCond now
            (if markCond now a then markUpd now a else a)
          then removeUpd now (if markCond now a then markUpd now a else a)
          else if markCond now a then markUpd now a else a).status := by
      unfold sweepCore
      rw [List.getElem?_map, hmid]
      exact ⟨_, rfl, applyById_proj
        (fun p : Nat × List String => p.1 ∈ ([] : List Nat)) Prod.fst
        (fun p x => recUpd now p.2 x) (fun x => x.status) (fun b x => rfl) _ _⟩
    have key : c.status = Status.removed
        ↔ a.next_renewal_date + 20 * msPerDay < now := by
      rw [hcs, mid_status_removed_iff now a hst]
      constructor <;> (intro hx; omega)
    cases smtp
    · have hd : sweepState noFaults false now arts = sweepCore now arts := hdecomp
      rw [hd]
      constructor
      · rintro ⟨b, hb, hbs⟩
        rw [hc] at hb
        cases Option.some.inj hb
        exact key.mp hbs
      · intro hx
        exact ⟨c, hc, key.mpr hx⟩
    · have hd : sweepState noFaults true now arts
          = condMap (notifyCond now) (notifyUpd now) (sweepCore now arts) :=
        hdecomp
      rw [hd]
      unfold condMap
      have hval : (List.map (fun x => if notifyCond now x then notifyUpd now x
          else x) (sweepCore now arts))[i]?
          = some (if notifyCond now c then notifyUpd now c else c) := by
        rw [List.getElem?_map, hc]
        rfl
      have hstat : (if notifyCond now c then notifyUpd now c else c).status
          = c.status := by
        split <;> rfl
      rw [hval]
      constructor
      · rintro ⟨b, hb, hbs⟩
        cases Option.some.inj hb
        exact key.mp (hstat ▸ hbs)
      · intro hx
        exact ⟨_, rfl, hstat.symm ▸ key.mpr hx⟩

/-- The spec's example article: active, with `next_renewal_date = now - 1 day`
for `now = day 10`. -/
def exDue : Article :=
  { exActive with next_renewal_date := 86400000 * 9, quality_score := 30 }

/-- Witness for C3: the spec's own example — an active article with
`next_renewal_date = now - 1 day` is marked outdated with quality score
decreased by 20, and is not removed. -/
theorem c3_sweep_thresholds_witness :
    ((idsOf [exDue]).Nodup ∧ [exDue][0]? = some exDue)
    ∧ (exDue.status = Status.active →
      ((markOutdatedArticles noFaults (86400000 * 10) [exDue]).2[0]?
          = some (if exDue.next_renewal_date < 86400000 * 10 then
              markUpd (86400000 * 10) exDue else exDue))
      ∧ ((∃ b, (markOutdatedArticles noFaults (86400000 * 10)
            [exDue]).2[0]? = some b ∧ b.status = Status.outdated)
          ↔ exDue.next_renewal_date < 86400000 * 10))
    ∧ ((exDue.status = Status.active ∨ exDue.status = Status.outdated) →
      ((∃ b, (sweepState noFaults true (86400000 * 10) [exDue])[0]? = some b
          ∧ b.status = Status.removed)
        ↔ exDue.next_renewal_date + 20 * msPerDay < 86400000 * 10)) :=
  ⟨⟨by decide, by decide⟩,
    (c3_sweep_thresholds (86400000 * 10) true [exDue] 0 exDue
      (by decide) (by decide)).1,
    (c3_sweep_thresholds (86400000 * 10) true [exDue] 0 exDue
      (by decide) (by decide)).2⟩

/-! ## C4 : renewal side effects -/

/-- Ids of a filtered table are pairwise distinct when the table's are. -/
theorem filter_ids_nodup (cond : Article → Bool) (arts : List Article)
    (hnd : (idsOf arts).Nodup) :
    ((arts.filter cond).map (fun b => b.id)).Nodup :=
  List.Nodup.sublist (List.Sublist.map _ (List.filter_sublist arts)) hnd

/-- **C4**: for every article whose status is `active` or `outdated`, renewal
at time `now` sets `status = active`, `last_renewed = now`,
`next_renewal_date = now + 30 days`, `removal_date = next_renewal_date +
20 days` and `quality_score = min (quality_score + 10) 100` (all packaged in
`renewUpd`), on both the single-article path and the renew-all path. -/
theorem c4_renewal_fields (now : Int) (uid articleId : Nat)
    (arts : List Article) (i : Nat) (a : Article)
    (hnd : (idsOf arts).Nodup) (ha : arts[i]? = some a) :
    ((arts.find? (fun x => decide (x.id = articleId) && decide (x.user_id = uid))
        = some a) → a.status ≠ Status.removed →
      (renewSingle now uid articleId arts).1
          = RenewResult.ok (now + 30 * msPerDay) (min (a.quality_score + 10) 100)
      ∧ (renewSingle now uid articleId arts).2[i]?
          = some (renewUpd now a.quality_score a))
    ∧ (a.user_id = uid →
        (a.status = Status.active ∨ a.status = Status.outdated) →
      (renewAll now uid arts).2[i]? = some (renewUpd now a.quality_score a)) := by
  constructor
  · intro hfind hst
    have hida : a.id = articleId := by
      have := List.find?_some hfind
      simp only [Bool.and_eq_true, decide_eq_true_eq] at this
      exact this.1
    unfold renewSingle
    simp only [hfind]
    rw [if_neg hst]
    refine ⟨rfl, ?_⟩
    rw [List.getElem?_map, ha]
    show some (if a.id = articleId then renewUpd now a.quality_score a else a)
      = some (renewUpd now a.quality_score a)
    rw [if_pos hida]
  · intro huid hst
    rw [renewAll_state_eq, List.getElem?_map, ha]
    show some (applyByKey (fun b => b.id)
        (fun b x => renewUpd now b.quality_score x)
        (arts.filter (renewAllCond uid)) a)
      = some (renewUpd now a.quality_score a)
    have hmem : a ∈ arts := List.getElem?_mem ha
    have hc : renewAllCond uid a = true := by
      unfold renewAllCond
      rcases hst with h | h <;>
        simp [huid, h]
    have hfa : a ∈ arts.filter (renewAllCond uid) :=
      List.mem_filter.mpr ⟨hmem, hc⟩
    rw [applyByKey_apply_once (fun b => b.id)
      (fun b x => renewUpd now b.quality_score x) (fun b x => rfl)
      (arts.filter (renewAllCond uid)) a a hfa rfl
      (filter_ids_nodup _ _ hnd)
      (fun b hb hid => List.inj_on_of_nodup_map hnd
        (List.mem_filter.mp hb).1 hmem hid)]

/-- Witness for C4 at a one-row table. -/
theorem c4_renewal_fields_witness :
    ((idsOf [exActive]).Nodup ∧ [exActive][0]? = some exActive)
    ∧ (([exActive].find? (fun x => decide (x.id = 1) && decide (x.user_id = 2))
        = some exActive) → exActive.status ≠ Status.removed →
      (renewSingle 5 2 1 [exActive]).1
          = RenewResult.ok (5 + 30 * msPerDay) (min (exActive.quality_score + 10) 100)
      ∧ (renewSingle 5 2 1 [exActive]).2[0]?
          = some (renewUpd 5 exActive.quality_score exActive))
    ∧ (exActive.user_id = 2 →
        (exActive.status = Status.active ∨ exActive.status = Status.outdated) →
      (renewAll 5 2 [exActive]).2[0]?
        = some (renewUpd 5 exActive.quality_score exActive)) :=
  ⟨⟨by decide, by decide⟩,
    (c4_renewal_fields 5 2 1 [exActive] 0 exActive (by decide) (by decide)).1,
    (c4_renewal_fields 5 2 1 [exActive] 0 exActive (by decide) (by decide)).2⟩

/-! ## C5 : forward-only transitions, removed terminal, soft delete -/

/-- Position of a status in the forward order active → outdated → removed. -/
def statusRank : Status → Nat
  | Status.active => 0
  | Status.outdated => 1
  | Status.removed => 2

theorem renewSingle_idsOf (now : Int) (uid articleId : Nat)
    (arts : List Article) :
    idsOf (renewSingle now uid articleId arts).2 = idsOf arts := by
  unfold renewSingle
  cases hfind : arts.find?
      (fun a => decide (a.id = articleId) && decide (a.user_id = uid)) with
  | none => rfl
  | some article =>
    simp only []
    split
    · rfl
    · exact idsOf_map _ (fun a => by split <;> rfl) arts

theorem renewAll_idsOf (now : Int) (uid : Nat) (arts : List Article) :
    idsOf (renewAll now uid arts).2 = idsOf arts := by
  rw [renewAll_state_eq]
  exact idsOf_map _ (fun a => applyByKey_proj (fun b : Article => b.id)
    (fun b x => renewUpd now b.quality_score x) (fun x => x.id)
    (fun b x => rfl) _ a) arts

/-- An entry of the recommendation work list belongs to an `outdated` row. -/
theorem recListOf_mem (now : Int) (t : List Article)
    (p : Nat × List String) (hp : p ∈ recListOf now t) :
    ∃ b ∈ t, recCond b = true ∧ p.1 = b.id := by
  unfold recListOf at hp
  rcases List.mem_map.mp hp with ⟨b, hb, rfl⟩
  have hbf : b ∈ t.filter recCond := List.take_subset 50 _ hb
  exact ⟨b, (List.mem_filter.mp hbf).1, (List.mem_filter.mp hbf).2, rfl⟩

/-- **C5**: every lifecycle operation preserves the set of rows (removal is a
soft tombstone, never a physical delete); no operation ever changes a removed
article again (removed is terminal); and the sweep only moves a row's status
forward along active → outdated → removed. -/
theorem c5_terminal_and_soft_delete (f : Faults) (smtp : Bool) (now : Int)
    (uid articleId : Nat) (arts : List Article) (i : Nat) (a : Article)
    (hnd : (idsOf arts).Nodup) (ha : arts[i]? = some a) :
    (idsOf (sweepState f smtp now arts) = idsOf arts
      ∧ idsOf (renewSingle now uid articleId arts).2 = idsOf arts
      ∧ idsOf (renewAll now uid arts).2 = idsOf arts)
    ∧ (a.status = Status.removed →
        (sweepState noFaults smtp now arts)[i]? = some a
        ∧ (renewSingle now uid articleId arts).2[i]? = some a
        ∧ (renewAll now uid arts).2[i]? = some a)
    ∧ (∃ b, (sweepState noFaults smtp now arts)[i]? = some b
        ∧ statusRank a.status ≤ statusRank b.status) := by
  have hmem : a ∈ arts := List.getElem?_mem ha
  have hmid : (sweepMid now arts)[i]?
      = some (if removeCond now (if markCond now a then markUpd now a else a)
          then removeUpd now (if markCond now a then markUpd now a else a)
          else if markCond now a then markUpd now a else a) := by
    unfold sweepMid condMap
    rw [List.getElem?_map, List.getElem?_map, ha]
    rfl
  have hnd2 : (idsOf (sweepMid now arts)).Nodup := by
    rw [sweepMid_idsOf]; exact hnd
  refine ⟨⟨sweep_idsOf f smtp now arts, renewSingle_idsOf now uid articleId arts,
    renewAll_idsOf now uid arts⟩, ?_, ?_⟩
  · intro hrm
    have hm1 : markCond now a = false := by simp [markCond, hrm]
    have hr1 : removeCond now a = false := by simp [removeCond, hrm]
    have hn1 : notifyCond now a = false := by simp [notifyCond, hrm]
    have hmid' : (sweepMid now arts)[i]? = some a := by
      rw [hmid, if_neg (by simp [hm1, hr1]), if_neg (by simp [hm1, hr1])]
    have hat2 : a ∈ sweepMid now arts := List.getElem?_mem hmid'
    have hcore : (sweepCore now arts)[i]? = some a := by
      unfold sweepCore
      rw [List.getElem?_map, hmid']
      show some (applyById (fun p : Nat × List String => p.1 ∈ ([] : List Nat))
        Prod.fst (fun p x => recUpd now p.2 x)
        (recListOf now (sweepMid now arts)) a) = some a
      rw [applyById_not_mem _ _ _ _ _ ?hni]
      case hni =>
        intro p hp _
        rcases recListOf_mem now _ p hp with ⟨b, hbt, hbc, hpid⟩
        rw [hpid]
        intro hbid
        have hba : b = a := List.inj_on_of_nodup_map hnd2 hbt hat2 hbid
        have : b.status = Status.outdated := by
          unfold recCond at hbc
          simp only [Bool.and_eq_true, decide_eq_true_eq] at hbc
          exact hbc.1
        rw [hba, hrm] at this
        exact absurd this (by decide)
    refine ⟨?_, ?_, ?_⟩
    · have hd := sweep_state_decomp smtp now arts hnd
      cases smtp
      · have hd' : sweepState noFaults false now arts = sweepCore now arts := hd
        rw [hd', hcore]
      · have hd' : sweepState noFaults true now arts
            = condMap (notifyCond now) (notifyUpd now) (sweepCore now arts) := hd
        rw [hd']
        unfold condMap
        rw [List.getElem?_map, hcore]
        show some (if notifyCond now a then notifyUpd now a else a) = some a
        rw [if_neg (by simp [hn1])]
    · unfold renewSingle
      cases hfind : arts.find?
          (fun x => decide (x.id = articleId) && decide (x.user_id = uid)) with
      | none => exact ha
      | some article =>
        simp only []
        split
        · exact ha
        next hnrm =>
          rw [List.getElem?_map, ha]
          show some (if a.id = articleId then
            renewUpd now article.quality_score a else a) = some a
          rw [if_neg ?hne]
          case hne =>
            intro hid
            have hfa := List.find?_some hfind
            simp only [Bool.and_eq_true, decide_eq_true_eq] at hfa
            have hmemf := List.mem_of_find?_eq_some hfind
            have : a = article :=
              List.inj_on_of_nodup_map hnd hmem hmemf (hid.trans hfa.1.symm)
            exact hnrm (this ▸ hrm)
    · rw [renewAll_state_eq, List.getElem?_map, ha]
      show some (applyByKey (fun b => b.id)
        (fun b x => renewUpd now b.quality_score x)
        (arts.filter (renewAllCond uid)) a) = some a
      rw [applyByKey_not_mem _ _ _ _ ?hnk]
      case hnk =>
        intro b hb hbid
        have hbm := List.mem_filter.mp hb
        have hba : b = a := List.inj_on_of_nodup_map hnd hbm.1 hmem hbid
        have hbc := hbm.2
        unfold renewAllCond at hbc
        simp only [Bool.and_eq_true, Bool.or_eq_true, decide_eq_true_eq] at hbc
        rcases hbc.2 with h | h <;>
          · rw [hba, hrm] at h
            exact absurd h (by decide)
  · have hrank2 : ∀ s, statusRank s ≤ 2 := by intro s; cases s <;> decide
    have hrankmid : statusRank a.status
        ≤ statusRank (if removeCond now
            (if markCond now a then markUpd now a else a)
          then removeUpd now (if markCond now a then markUpd now a else a)
          else if markCond now a then markUpd now a else a).status := by
      by_cases h2 : removeCond now
          (if markCond now a then markUpd now a else a) = true
      · rw [if_pos h2]
        exact hrank2 _
      · rw [if_neg h2]
        by_cases h1 : markCond now a = true
        · rw [if_pos h1]
          have : a.status = Status.active := by
            unfold markCond at h1
            simp only [Bool.and_eq_true, decide_eq_true_eq] at h1
            exact h1.2
          rw [this]
          exact Nat.zero_le _
        · rw [if_neg h1]
    have hd := sweep_state_decomp smtp now arts hnd
    have hcores : ∃ c, (sweepCore now arts)[i]? = some c
        ∧ statusRank a.status ≤ statusRank c.status := by
      unfold sweepCore
      rw [List.getElem?_map, hmid]
      refine ⟨_, rfl, ?_⟩
      rw [applyById_proj (fun p : Nat × List String => p.1 ∈ ([] : List Nat))
        Prod.fst (fun p x => recUpd now p.2 x) (fun x => x.status)
        (fun b x => rfl) _ _]
      exact hrankmid
    rcases hcores with ⟨c, hc, hcrank⟩
    cases smtp
    · have hd' : sweepState noFaults false now arts = sweepCore now arts := hd
      rw [hd']
      exact ⟨c, hc, hcrank⟩
    · have hd' : sweepState noFaults true now arts
          = condMap (notifyCond now) (notifyUpd now) (sweepCore now arts) := hd
      rw [hd']
      unfold condMap
      rw [List.getElem?_map, hc]
      refine ⟨_, rfl, ?_⟩
      have : (if notifyCond now c then notifyUpd now c else c).status
          = c.status := by split <;> rfl
      rw [this]
      exact hcrank

/-- A concrete removed article sharing the table with an active one. -/
def exRemoved : Article :=
  { exActive with
      id := 3
      status := Status.removed
      removal_date := some 2
      removal_reason := some "automatic_cleanup_20_days" }

/-- Witness for C5 at a two-row table whose second row is removed. -/
theorem c5_terminal_and_soft_delete_witness :
    ((idsOf [exActive, exRemoved]).Nodup
      ∧ [exActive, exRemoved][1]? = some exRemoved)
    ∧ ((idsOf (sweepState noFaults true 5 [exActive, exRemoved]) =
          idsOf [exActive, exRemoved]
        ∧ idsOf (renewSingle 5 2 3 [exActive, exRemoved]).2 =
          idsOf [exActive, exRemoved]
        ∧ idsOf (renewAll 5 2 [exActive, exRemoved]).2 =
          idsOf [exActive, exRemoved])
      ∧ (exRemoved.status = Status.removed →
          (sweepState noFaults true 5 [exActive, exRemoved])[1]? = some exRemoved
          ∧ (renewSingle 5 2 3 [exActive, exRemoved]).2[1]? = some exRemoved
          ∧ (renewAll 5 2 [exActive, exRemoved]).2[1]? = some exRemoved)
      ∧ (∃ b, (sweepState noFaults true 5 [exActive, exRemoved])[1]? = some b
          ∧ statusRank exRemoved.status ≤ statusRank b.status)) :=
  ⟨⟨by decide, by decide⟩,
    c5_terminal_and_soft_delete noFaults true 5 2 3 [exActive, exRemoved] 1
      exRemoved (by decide) (by decide)⟩

/-! ## C2 : sweep idempotence -/

/-- Neither marking nor removal can leave a row that the marking phase would
still select. -/
theorem mid_not_markCond (now : Int) (a : Article) :
    markCond now (if removeCond now (if markCond now a then markUpd now a else a)
      then removeUpd now (if markCond now a then markUpd now a else a)
      else if markCond now a then markUpd now a else a) = false := by
  by_cases h2 : removeCond now (if markCond now a then markUpd now a else a) = true
  · rw [if_pos h2]
    simp [markCond, removeUpd]
  · rw [if_neg h2]
    by_cases h1 : markCond now a = true
    · rw [if_pos h1]
      simp [markCond, markUpd]
    · rw [if_neg h1]
      exact Bool.eq_false_iff.mpr h1

/-- After marking and removal no row still satisfies the removal selection. -/
theorem mid_not_removeCond (now : Int) (a : Article) :
    removeCond now (if removeCond now (if markCond now a then markUpd now a else a)
      then removeUpd now (if markCond now a then markUpd now a else a)
      else if markCond now a then markUpd now a else a) = false := by
  by_cases h2 : removeCond now (if markCond now a then markUpd now a else a) = true
  · rw [if_pos h2]
    simp [removeCond, removeUpd]
  · rw [if_neg h2]
    exact Bool.eq_false_iff.mpr h2

theorem markCond_congr (now : Int) {y x : Article}
    (h1 : y.next_renewal_date = x.next_renewal_date)
    (h2 : y.status = x.status) : markCond now y = markCond now x := by
  unfold markCond
  rw [h1, h2]

theorem removeCond_congr (now : Int) {y x : Article}
    (h1 : y.next_renewal_date = x.next_renewal_date)
    (h2 : y.status = x.status) : removeCond now y = removeCond now x := by
  unfold removeCond
  rw [h1, h2]

theorem recCond_congr {y x : Article} (h1 : y.status = x.status)
    (h2 : y.renewal_recommendations = x.renewal_recommendations) :
    recCond y = recCond x := by
  unfold recCond
  rw [h1, h2]

theorem notifyCond_congr (now : Int) {y x : Article}
    (h1 : y.next_renewal_date = x.next_renewal_date)
    (h2 : y.status = x.status)
    (h3 : y.renewal_notification_sent = x.renewal_notification_sent) :
    notifyCond now y = notifyCond now x := by
  unfold notifyCond
  rw [h1, h2, h3]

/-- Every article field except the two written by the recommendation phase
(`renewal_recommendations` and `recommendations_generated_at`). -/
def nonRecFields (a : Article) :
    Nat × Nat × String × String × Status × Int × Option Int × Option String
      × Option Int × Option Int × Option Int × Int × List String × String
      × String × Int × Option Int × Int :=
  (a.id, a.user_id, a.title, a.page_name, a.status, a.next_renewal_date,
   a.removal_date, a.removal_reason, a.outdated_since, a.last_renewed,
   a.renewal_notification_sent, a.quality_score, a.tags, a.category,
   a.content, a.created_at, a.updated_at, a.views)

/-- After the core sweep no row is still selected by marking or removal —
with no bound on how many rows await recommendations. -/
theorem sweepCore_mem_mr (now : Int) (arts : List Article) :
    ∀ c ∈ sweepCore now arts,
      markCond now c = false ∧ removeCond now c = false := by
  intro c hc
  unfold sweepCore at hc
  rcases List.mem_map.mp hc with ⟨m, hm, rfl⟩
  have hnrd : (applyById
      (fun p : Nat × List String => p.1 ∈ ([] : List Nat)) Prod.fst
      (fun p x => recUpd now p.2 x)
      (recListOf now (sweepMid now arts)) m).next_renewal_date
      = m.next_renewal_date :=
    applyById_proj (fun p : Nat × List String => p.1 ∈ ([] : List Nat))
      Prod.fst (fun p x => recUpd now p.2 x)
      (fun x => x.next_renewal_date) (fun p x => rfl) _ m
  have hstp : (applyById
      (fun p : Nat × List String => p.1 ∈ ([] : List Nat)) Prod.fst
      (fun p x => recUpd now p.2 x)
      (recListOf now (sweepMid now arts)) m).status = m.status :=
    applyById_proj (fun p : Nat × List String => p.1 ∈ ([] : List Nat))
      Prod.fst (fun p x => recUpd now p.2 x)
      (fun x => x.status) (fun p x => rfl) _ m
  have hmAB : markCond now m = false ∧ removeCond now m = false := by
    have hm' := hm
    unfold sweepMid condMap at hm'
    rcases List.mem_map.mp hm' with ⟨m1, hm1, rfl⟩
    rcases List.mem_map.mp hm1 with ⟨a, ha, rfl⟩
    exact ⟨mid_not_markCond now a, mid_not_removeCond now a⟩
  exact ⟨(markCond_congr now hnrd hstp).trans hmAB.1,
    (removeCond_congr now hnrd hstp).trans hmAB.2⟩

/-- After one full fault-free sweep no row is still selected by marking,
removal or notification — with no bound on pending recommendations. -/
theorem sweep_mem_mr (smtp : Bool) (now : Int) (arts : List Article)
    (hnd : (idsOf arts).Nodup) :
    ∀ b ∈ sweepState noFaults smtp now arts,
      markCond now b = false ∧ removeCond now b = false
        ∧ (smtp = true → notifyCond now b = false) := by
  intro b hb
  have hd := sweep_state_decomp smtp now arts hnd
  cases smtp
  · have hd' : sweepState noFaults false now arts = sweepCore now arts := hd
    rw [hd'] at hb
    obtain ⟨hA, hB⟩ := sweepCore_mem_mr now arts b hb
    exact ⟨hA, hB, fun h => absurd h (by decide)⟩
  · have hd' : sweepState noFaults true now arts
        = condMap (notifyCond now) (notifyUpd now) (sweepCore now arts) := hd
    rw [hd'] at hb
    unfold condMap at hb
    rcases List.mem_map.mp hb with ⟨c, hcm, rfl⟩
    obtain ⟨hA, hB⟩ := sweepCore_mem_mr now arts c hcm
    by_cases hn : notifyCond now c = true
    · rw [if_pos hn]
      refine ⟨(markCond_congr now rfl rfl).trans hA,
        (removeCond_congr now rfl rfl).trans hB, fun _ => ?_⟩
      unfold notifyCond notifyUpd
      simp
    · rw [if_neg hn]
      exact ⟨hA, hB, fun _ => Bool.eq_false_iff.mpr hn⟩

/-- After the fault-free core sweep no row is still selected by marking,
removal or (given at most 50 pending rows) recommendation generation. -/
theorem sweepCore_mem_props (now : Int) (arts : List Article)
    (hnd : (idsOf arts).Nodup)
    (h50 : ((sweepMid now arts).filter recCond).length ≤ 50) :
    ∀ c ∈ sweepCore now arts, markCond now c = false
      ∧ removeCond now c = false ∧ recCond c = false := by
  intro c hc
  unfold sweepCore at hc
  rcases List.mem_map.mp hc with ⟨m, hm, rfl⟩
  have hnrd : (applyById
      (fun p : Nat × List String => p.1 ∈ ([] : List Nat)) Prod.fst
      (fun p x => recUpd now p.2 x)
      (recListOf now (sweepMid now arts)) m).next_renewal_date
      = m.next_renewal_date :=
    applyById_proj (fun p : Nat × List String => p.1 ∈ ([] : List Nat))
      Prod.fst (fun p x => recUpd now p.2 x)
      (fun x => x.next_renewal_date) (fun p x => rfl) _ m
  have hstp : (applyById
      (fun p : Nat × List String => p.1 ∈ ([] : List Nat)) Prod.fst
      (fun p x => recUpd now p.2 x)
      (recListOf now (sweepMid now arts)) m).status = m.status :=
    applyById_proj (fun p : Nat × List String => p.1 ∈ ([] : List Nat))
      Prod.fst (fun p x => recUpd now p.2 x)
      (fun x => x.status) (fun p x => rfl) _ m
  have hmAB : markCond now m = false ∧ removeCond now m = false := by
    have hm' := hm
    unfold sweepMid condMap at hm'
    rcases List.mem_map.mp hm' with ⟨m1, hm1, rfl⟩
    rcases List.mem_map.mp hm1 with ⟨a, ha, rfl⟩
    exact ⟨mid_not_markCond now a, mid_not_removeCond now a⟩
  refine ⟨(markCond_congr now hnrd hstp).trans hmAB.1,
    (removeCond_congr now hnrd hstp).trans hmAB.2, ?_⟩
  by_cases hrc : recCond m = true
  · have hmf : m ∈ (sweepMid now arts).filter recCond :=
      List.mem_filter.mpr ⟨hm, hrc⟩
    have htake : ((sweepMid now arts).filter recCond).take 50
        = (sweepMid now arts).filter recCond := List.take_of_length_le h50
    have hp : (m.id, recsFor (articleAge now m) m.category m.tags.length)
        ∈ recListOf now (sweepMid now arts) := by
      unfold recListOf
      exact List.mem_map.mpr ⟨m, htake.symm ▸ hmf, rfl⟩
    have hfill := applyById_recs_filled now
      (fun p : Nat × List String => p.1 ∈ ([] : List Nat))
      (recListOf now (sweepMid now arts)) m _ hp
      (List.not_mem_nil _) rfl
    unfold recCond
    rw [decide_eq_false hfill, Bool.and_false]
  · by_cases hst : m.status = Status.outdated
    · have hrne : m.renewal_recommendations ≠ none := by
        intro hn
        exact hrc (by unfold recCond; simp [hst, hn])
      have hfill := applyById_recs_some now
        (fun p : Nat × List String => p.1 ∈ ([] : List Nat))
        (recListOf now (sweepMid now arts)) m hrne
      unfold recCond
      rw [decide_eq_false hfill, Bool.and_false]
    · unfold recCond
      rw [decide_eq_false (fun he => hst (hstp ▸ he)), Bool.false_and]

/-- After one full fault-free sweep no row is still selected by any phase. -/
theorem sweep_mem_props (smtp : Bool) (now : Int) (arts : List Article)
    (hnd : (idsOf arts).Nodup)
    (h50 : ((sweepMid now arts).filter recCond).length ≤ 50) :
    ∀ b ∈ sweepState noFaults smtp now arts,
      markCond now b = false ∧ removeCond now b = false ∧ recCond b = false
        ∧ (smtp = true → notifyCond now b = false) := by
  intro b hb
  have hd := sweep_state_decomp smtp now arts hnd
  cases smtp
  · have hd' : sweepState noFaults false now arts = sweepCore now arts := hd
    rw [hd'] at hb
    obtain ⟨hA, hB, hC⟩ := sweepCore_mem_props now arts hnd h50 b hb
    exact ⟨hA, hB, hC, fun h => absurd h (by decide)⟩
  · have hd' : sweepState noFaults true now arts
        = condMap (notifyCond now) (notifyUpd now) (sweepCore now arts) := hd
    rw [hd'] at hb
    unfold condMap at hb
    rcases List.mem_map.mp hb with ⟨c, hcm, rfl⟩
    obtain ⟨hA, hB, hC⟩ := sweepCore_mem_props now arts hnd h50 c hcm
    by_cases hn : notifyCond now c = true
    · rw [if_pos hn]
      refine ⟨(markCond_congr now rfl rfl).trans hA,
        (removeCond_congr now rfl rfl).trans hB,
        (recCond_congr rfl rfl).trans hC, fun _ => ?_⟩
      unfold notifyCond notifyUpd
      simp
    · rw [if_neg hn]
      exact ⟨hA, hB, hC, fun _ => Bool.eq_false_iff.mpr hn⟩

theorem mark_no_op (now : Int) (arts : List Article)
    (h : ∀ b ∈ arts, markCond now b = false) :
    markOutdatedArticles noFaults now arts = (0, arts) := by
  unfold markOutdatedArticles noFaults
  simp only [Bool.false_eq_true, if_false]
  have hfil : arts.filter (markCond now) = [] :=
    List.filter_eq_nil_iff.mpr (fun a ha => by simp [h a ha])
  rw [hfil]
  rfl

theorem remove_no_op (now : Int) (arts : List Article)
    (h : ∀ b ∈ arts, removeCond now b = false) :
    removeOldArticles noFaults now arts = (0, arts) := by
  unfold removeOldArticles noFaults
  simp only [Bool.false_eq_true, if_false]
  have hfil : arts.filter (removeCond now) = [] :=
    List.filter_eq_nil_iff.mpr (fun a ha => by simp [h a ha])
  rw [hfil]
  rfl

theorem gen_no_op (now : Int) (arts : List Article)
    (h : ∀ b ∈ arts, recCond b = false) :
    generateRecommendations noFaults now arts = (0, arts) := by
  unfold generateRecommendations noFaults
  simp only [Bool.false_eq_true, if_false]
  have hfil : arts.filter recCond = [] :=
    List.filter_eq_nil_iff.mpr (fun a ha => by simp [h a ha])
  rw [hfil]
  rfl

theorem notify_no_op (now : Int) (arts : List Article)
    (h : ∀ b ∈ arts, notifyCond now b = false) :
    notifyUsersOfOutdatedArticles noFaults now arts = arts := by
  unfold notifyUsersOfOutdatedArticles noFaults
  simp only [Bool.false_eq_true, if_false]
  have hfil : arts.filter (notifyCond now) = [] :=
    List.filter_eq_nil_iff.mpr (fun a ha => by simp [h a ha])
  rw [hfil]
  rfl

/-- **C2 (amended)**: with pairwise-distinct ids, running the fault-free
sweep twice at the same instant changes nothing on the second run provided
at most 50 rows are outdated-without-recommendations after the marking and
removal phases (the recommendation phase is capped by `limit(50)`); and in
any case — however many rows are still pending — the second run modifies no
field other than `renewal_recommendations` and
`recommendations_generated_at`: statuses, quality scores and notification
timestamps are never touched again. -/
theorem c2_sweep_idempotent (smtp : Bool) (now : Int) (arts : List Article)
    (hnd : (idsOf arts).Nodup) :
    (((sweepMid now arts).filter recCond).length ≤ 50 →
      sweepState noFaults smtp now (sweepState noFaults smtp now arts)
        = sweepState noFaults smtp now arts)
    ∧ (sweepState noFaults smtp now (sweepState noFaults smtp now arts)).map
        nonRecFields
      = (sweepState noFaults smtp now arts).map nonRecFields := by
  constructor
  case left =>
    intro h50
    have hprops := sweep_mem_props smtp now arts hnd h50
    have hA : ∀ b ∈ sweepState noFaults smtp now arts,
        markCond now b = false := fun b hb => (hprops b hb).1
    have hB : ∀ b ∈ sweepState noFaults smtp now arts,
        removeCond now b = false := fun b hb => (hprops b hb).2.1
    have hC : ∀ b ∈ sweepState noFaults smtp now arts, recCond b = false :=
      fun b hb => (hprops b hb).2.2.1
    have h1 : (markOutdatedArticles noFaults now
        (sweepState noFaults smtp now arts)).2
        = sweepState noFaults smtp now arts :=
      congrArg Prod.snd (mark_no_op now _ hA)
    have h2 : (removeOldArticles noFaults now
        (sweepState noFaults smtp now arts)).2
        = sweepState noFaults smtp now arts :=
      congrArg Prod.snd (remove_no_op now _ hB)
    have h3 : (generateRecommendations noFaults now
        (sweepState noFaults smtp now arts)).2
        = sweepState noFaults smtp now arts :=
      congrArg Prod.snd (gen_no_op now _ hC)
    cases smtp
    · rw [sweepState_unfold_false noFaults now
        (sweepState noFaults false now arts), h1, h2, h3]
    · have hD : ∀ b ∈ sweepState noFaults true now arts,
          notifyCond now b = false := fun b hb => (hprops b hb).2.2.2 rfl
      rw [sweepState_unfold_true noFaults now
        (sweepState noFaults true now arts), h1, h2, h3]
      exact notify_no_op now _ hD
  case right =>
    have hmr := sweep_mem_mr smtp now arts hnd
    have h1 : (markOutdatedArticles noFaults now
        (sweepState noFaults smtp now arts)).2
        = sweepState noFaults smtp now arts :=
      congrArg Prod.snd (mark_no_op now _ (fun b hb => (hmr b hb).1))
    have h2 : (removeOldArticles noFaults now
        (sweepState noFaults smtp now arts)).2
        = sweepState noFaults smtp now arts :=
      congrArg Prod.snd (remove_no_op now _ (fun b hb => (hmr b hb).2.1))
    have hg := gen_state_eq noFaults now
      (sweepState noFaults smtp now arts) rfl
    have hGproj : ∀ a : Article,
        nonRecFields (applyById
          (fun p => p.1 ∈ noFaults.recUpdateFailIds) Prod.fst
          (fun p x => recUpd now p.2 x)
          (recListOf now (sweepState noFaults smtp now arts)) a)
        = nonRecFields a :=
      fun a => applyById_proj (fun p => p.1 ∈ noFaults.recUpdateFailIds)
        Prod.fst (fun p x => recUpd now p.2 x) nonRecFields
        (fun p x => rfl) _ a
    cases smtp
    · rw [sweepState_unfold_false noFaults now
        (sweepState noFaults false now arts), h1, h2, hg, List.map_map]
      exact List.map_congr_left (fun a _ => hGproj a)
    · rw [sweepState_unfold_true noFaults now
        (sweepState noFaults true now arts), h1, h2, hg]
      have hnop : notifyUsersOfOutdatedArticles noFaults now
          ((sweepState noFaults true now arts).map (applyById
            (fun p => p.1 ∈ noFaults.recUpdateFailIds) Prod.fst
            (fun p x => recUpd now p.2 x)
            (recListOf now (sweepState noFaults true now arts))))
          = (sweepState noFaults true now arts).map (applyById
            (fun p => p.1 ∈ noFaults.recUpdateFailIds) Prod.fst
            (fun p x => recUpd now p.2 x)
            (recListOf now (sweepState noFaults true now arts))) := by
        apply notify_no_op
        intro b hb
        rcases List.mem_map.mp hb with ⟨c, hcS, rfl⟩
        have hcongr : notifyCond now (applyById
            (fun p => p.1 ∈ noFaults.recUpdateFailIds) Prod.fst
            (fun p x => recUpd now p.2 x)
            (recListOf now (sweepState noFaults true now arts)) c)
            = notifyCond now c :=
          notifyCond_congr now
            (applyById_proj (fun p => p.1 ∈ noFaults.recUpdateFailIds)
              Prod.fst (fun p x => recUpd now p.2 x)
              (fun x => x.next_renewal_date) (fun p x => rfl) _ c)
            (applyById_proj (fun p => p.1 ∈ noFaults.recUpdateFailIds)
              Prod.fst (fun p x => recUpd now p.2 x)
              (fun x => x.status) (fun p x => rfl) _ c)
            (applyById_proj (fun p => p.1 ∈ noFaults.recUpdateFailIds)
              Prod.fst (fun p x => recUpd now p.2 x)
              (fun x => x.renewal_notification_sent) (fun p x => rfl) _ c)
        rw [hcongr]
        exact (hmr c hcS).2.2 rfl
      rw [hnop, List.map_map]
      exact List.map_congr_left (fun a _ => hGproj a)

/-- One of 51 outdated articles with no stored recommendations. -/
def mkC2Article (i : Nat) : Article :=
  { id := i, user_id := 0, title := "t", page_name := "p",
    status := Status.outdated, next_renewal_date := 86400000000,
    removal_date := none, removal_reason := none, outdated_since := some 0,
    last_renewed := none, renewal_notification_sent := none,
    quality_score := 50, tags := [], category := "general", content := "",
    created_at := 0, renewal_recommendations := none,
    recommendations_generated_at := none, updated_at := none, views := 0 }

/-- A table of 51 outdated articles, all lacking recommendations — one more
than the recommendation phase's `limit(50)`. -/
def c2State : List Article := (List.range 51).map mkC2Article

set_option maxRecDepth 100000 in
set_option maxHeartbeats 1000000 in
/-- Counterexample to C2 as stated: on `c2State` the second sweep run writes
recommendations (and a generation timestamp) to the 51st article, so running
the sweep twice on an unchanged data set does produce an additional state
change. -/
theorem c2_counterexample :
    sweepState noFaults true 86400000000
        (sweepState noFaults true 86400000000 c2State)
      ≠ sweepState noFaults true 86400000000 c2State := by
  intro h
  exact absurd (congrArg
    (List.map (fun a : Article => a.renewal_recommendations.isSome)) h)
    (by decide)

/-- Witness for C2 (amended): a two-article table. -/
theorem c2_sweep_idempotent_witness :
    (idsOf [exActive, exRemoved]).Nodup
    ∧ ((((sweepMid 5 [exActive, exRemoved]).filter recCond).length ≤ 50 →
        sweepState noFaults true 5
            (sweepState noFaults true 5 [exActive, exRemoved])
          = sweepState noFaults true 5 [exActive, exRemoved])
      ∧ (sweepState noFaults true 5
            (sweepState noFaults true 5 [exActive, exRemoved])).map
          nonRecFields
        = (sweepState noFaults true 5 [exActive, exRemoved]).map
            nonRecFields) :=
  ⟨by decide, c2_sweep_idempotent true 5 [exActive, exRemoved] (by decide)⟩

/-! ## C6 : single-use security codes -/

theorem find?_pred_map {α : Type} (p : α → Bool) (g : α → α)
    (h : ∀ a, p (g a) = p a) :
    ∀ (l : List α), (l.map g).find? p = (l.find? p).map g
  | [] => rfl
  | a :: l => by
    rw [List.map_cons]
    cases hpa : p a with
    | true =>
      rw [List.find?_cons_of_pos _ (by rw [h a]; exact hpa),
        List.find?_cons_of_pos _ hpa]
      rfl
    | false =>
      rw [List.find?_cons_of_neg _ (by rw [h a]; exact hpa ▸ (by simp)),
        List.find?_cons_of_neg _ (by rw [hpa]; simp)]
      exact find?_pred_map p g h l

/-- A code value absent from the list is never found by `indexOf`. -/
theorem indexOfCode_eq_none (code : String) :
    ∀ (cs : List (Option String)), (∀ x ∈ cs, x ≠ some code) →
      indexOfCode code cs = none
  | [], _ => rfl
  | c :: cs, h => by
    unfold indexOfCode
    rw [if_neg (h c (List.mem_cons_self c cs)),
      indexOfCode_eq_none code cs (fun x hx => h x (List.mem_cons_of_mem _ hx))]
    rfl

/-- Consuming the slot found by `indexOf` removes the only occurrence of the
code (when the list holds it at most once), so a second `indexOf` fails. -/
theorem indexOfCode_set_none (code : String) :
    ∀ (cs : List (Option String)) (i : Nat),
      indexOfCode code cs = some i →
      (cs.filter (fun c => decide (c = some code))).length ≤ 1 →
      indexOfCode code (cs.set i none) = none
  | [], i, h, _ => by simp [indexOfCode] at h
  | c :: cs, i, h, hcount => by
    unfold indexOfCode at h
    by_cases hc : c = some code
    · rw [if_pos hc] at h
      cases Option.some.inj h
      have hlen : (cs.filter (fun c => decide (c = some code))).length = 0 := by
        rw [List.filter_cons_of_pos (by simp [hc])] at hcount
        simpa using hcount
      have hnil : cs.filter (fun c => decide (c = some code)) = [] :=
        List.length_eq_zero.mp hlen
      have hnomem : ∀ x ∈ cs, x ≠ some code := by
        intro x hx
        have := List.filter_eq_nil_iff.mp hnil x hx
        simpa using this
      show indexOfCode code ((c :: cs).set 0 none) = none
      rw [List.set_cons_zero]
      unfold indexOfCode
      rw [if_neg (by simp), indexOfCode_eq_none code cs hnomem]
      rfl
    · rw [if_neg hc] at h
      cases hidx : indexOfCode code cs with
      | none =>
        rw [hidx] at h
        simp at h
      | some j =>
        rw [hidx] at h
        simp only [Option.map_some'] at h
        cases Option.some.inj h
        have hcount' : (cs.filter (fun c => decide (c = some code))).length ≤ 1 := by
          rwa [List.filter_cons_of_neg (by simp [hc])] at hcount
        show indexOfCode code ((c :: cs).set (j + 1) none) = none
        rw [List.set_cons_succ]
        unfold indexOfCode
        rw [if_neg hc, indexOfCode_set_none code cs j hidx hcount']
        rfl

/-- **C6 (amended)**: provided the presented code value is stored at most
once in the user's code list (as the independently generated random codes
are, barring collisions), a login that succeeded by consuming the code makes
any subsequent login presenting the same code value fail with an
invalid-code rejection. -/
theorem c6_code_single_use (users : List User) (email code : String)
    (u : User) (n : Nat)
    (hfind : users.find? (fun v => decide (v.email = email)) = some u)
    (hcount : (u.security_codes.filter
        (fun c => decide (c = some code))).length ≤ 1)
    (hsucc : (handleLogin users email code).1 = LoginResult.success n) :
    (handleLogin (handleLogin users email code).2 email code).1
      = LoginResult.invalidCode := by
  cases hidx : indexOfCode code u.security_codes with
  | none =>
    have hfail : (handleLogin users email code).1 = LoginResult.invalidCode := by
      unfold handleLogin
      simp only [hfind, hidx]
    rw [hfail] at hsucc
    exact absurd hsucc (by simp)
  | some i =>
    have hstate : (handleLogin users email code).2
        = users.map (fun v => if v.id = u.id
            then { v with security_codes := u.security_codes.set i none }
            else v) := by
      unfold handleLogin
      simp only [hfind, hidx]
    rw [hstate]
    have hfind2 : (users.map (fun v => if v.id = u.id
        then { v with security_codes := u.security_codes.set i none }
        else v)).find? (fun v => decide (v.email = email))
        = some { u with security_codes := u.security_codes.set i none } := by
      rw [find?_pred_map _ _ (fun v => by split <;> rfl), hfind]
      simp
    unfold handleLogin
    simp only [hfind2]
    rw [indexOfCode_set_none code u.security_codes i hidx hcount]

/-- A user whose stored list holds the same code value twice. -/
def dupUser : User :=
  { id := 1, email := "dup@example.com",
    security_codes := [some "AAAA", some "AAAA"], next_refresh_allowed := 0 }

/-- Counterexample to C6 as stated: with a duplicated code value in the
stored list, the first login consumes one slot yet a second login presenting
the same already-consumed code value authenticates again instead of being
rejected. -/
theorem c6_counterexample :
    (handleLogin [dupUser] "dup@example.com" "AAAA").1 = LoginResult.success 1
    ∧ (handleLogin (handleLogin [dupUser] "dup@example.com" "AAAA").2
        "dup@example.com" "AAAA").1 = LoginResult.success 0 := by
  unfold handleLogin
  constructor <;> decide

/-- A user with two distinct stored codes. -/
def exUser : User :=
  { id := 7, email := "user@example.com",
    security_codes := [some "AAAA", some "BBBB"], next_refresh_allowed := 0 }

/-- Witness for C6 (amended) at a concrete user. -/
theorem c6_code_single_use_witness :
    (([exUser].find? (fun v => decide (v.email = "user@example.com"))
        = some exUser)
      ∧ (exUser.security_codes.filter
          (fun c => decide (c = some "AAAA"))).length ≤ 1
      ∧ (handleLogin [exUser] "user@example.com" "AAAA").1
          = LoginResult.success 1)
    ∧ (handleLogin (handleLogin [exUser] "user@example.com" "AAAA").2
        "user@example.com" "AAAA").1 = LoginResult.invalidCode :=
  ⟨⟨by decide, by decide, by unfold handleLogin; decide⟩,
    c6_code_single_use [exUser] "user@example.com" "AAAA" exUser 1
      (by decide) (by decide) (by unfold handleLogin; decide)⟩

/-! ## C7 : recommendation heuristic -/

/-- **C7**: the recommendation generator is a deterministic pure function of
article age in days, category and tag count: the stored list for a selected
article is exactly `recsFor (age) (category) (tag count)`, whose head is the
single age phrase (age > 180: complete rewrite; age > 90: update with latest
series; otherwise: add recent developments), which contains the movie /
comic addendum iff the category matches, contains the tag addendum iff the
article has fewer than 5 tags, and never exceeds 3 phrases. -/
theorem c7_recommendations (now : Int) (arts : List Article) (i : Nat)
    (a : Article) (hnd : (idsOf arts).Nodup)
    (h50 : (arts.filter recCond).length ≤ 50)
    (ha : arts[i]? = some a) (hsel : recCond a = true) :
    ((generateRecommendations noFaults now arts).2[i]?
        = some (recUpd now
            (recsFor (articleAge now a) a.category a.tags.length) a))
    ∧ (∀ (age : Int) (cat : String) (tagCount : Nat),
        (recsFor age cat tagCount).length ≤ 3
        ∧ (recsFor age cat tagCount).head?
            = some (if age > 180 then
                "Complete rewrite needed - major updates to character history"
              else if age > 90 then
                "Update with latest comic series and appearances"
              else "Add recent developments and fan theories")
        ∧ ("Include latest film adaptations and casting news"
              ∈ recsFor age cat tagCount ↔ cat = "movie")
        ∧ ("Add recent story arcs and crossover events"
              ∈ recsFor age cat tagCount ↔ cat = "comic")
        ∧ ("Expand tags for better searchability"
              ∈ recsFor age cat tagCount ↔ tagCount < 5)) := by
  constructor
  · rw [gen_state_eq noFaults now arts rfl, List.getElem?_map, ha]
    show some (applyById (fun p => p.1 ∈ noFaults.recUpdateFailIds) Prod.fst
      (fun p x => recUpd now p.2 x) (recListOf now arts) a)
      = some (recUpd now
          (recsFor (articleAge now a) a.category a.tags.length) a)
    have hmem : a ∈ arts := List.getElem?_mem ha
    have htake : (arts.filter recCond).take 50 = arts.filter recCond :=
      List.take_of_length_le h50
    have hb₀ : (a.id, recsFor (articleAge now a) a.category a.tags.length)
        ∈ recListOf now arts := by
      unfold recListOf
      exact List.mem_map.mpr ⟨a,
        htake.symm ▸ List.mem_filter.mpr ⟨hmem, hsel⟩, rfl⟩
    have hkeys : ((recListOf now arts).map Prod.fst).Nodup := by
      have heq : (recListOf now arts).map Prod.fst
          = ((arts.filter recCond).take 50).map (fun b => b.id) := by
        unfold recListOf
        rw [List.map_map]
        rfl
      rw [heq]
      exact List.Nodup.sublist
        (List.Sublist.map _
          ((List.take_sublist 50 _).trans (List.filter_sublist arts))) hnd
    rw [applyById_apply_once (fun p => p.1 ∈ noFaults.recUpdateFailIds)
      Prod.fst (fun p x => recUpd now p.2 x) (fun p x => rfl)
      (recListOf now arts) a
      (a.id, recsFor (articleAge now a) a.category a.tags.length)
      hb₀ (List.not_mem_nil _) rfl hkeys ?huniq]
    case huniq =>
      intro p hp hpk
      rcases recListOf_mem now arts p hp with ⟨b, hbm, _, hpid⟩
      unfold recListOf at hp
      rcases List.mem_map.mp hp with ⟨b', hb', rfl⟩
      have hb'arts : b' ∈ arts :=
        (List.mem_filter.mp (List.take_subset 50 _ hb')).1
      have : b' = a := List.inj_on_of_nodup_map hnd hb'arts hmem hpk
      rw [this]
  · intro age cat tagCount
    unfold recsFor
    by_cases h1 : age > 180 <;> by_cases h2 : age > 90 <;>
      by_cases hm : cat = "movie" <;> by_cases hcm : cat = "comic" <;>
      by_cases hn : tagCount < 5 <;>
      simp [h1, h2, hm, hcm, hn]

/-- Witness for C7 at a concrete outdated article (age 1000 days, category
"general", no tags). -/
theorem c7_recommendations_witness :
    ((idsOf [mkC2Article 0]).Nodup
      ∧ ([mkC2Article 0].filter recCond).length ≤ 50
      ∧ [mkC2Article 0][0]? = some (mkC2Article 0)
      ∧ recCond (mkC2Article 0) = true)
    ∧ (generateRecommendations noFaults 86400000000 [mkC2Article 0]).2[0]?
        = some (recUpd 86400000000
            (recsFor (articleAge 86400000000 (mkC2Article 0))
              (mkC2Article 0).category (mkC2Article 0).tags.length)
            (mkC2Article 0)) :=
  ⟨⟨by decide, by decide, by decide, by decide⟩,
    (c7_recommendations 86400000000 [mkC2Article 0] 0 (mkC2Article 0)
      (by decide) (by decide) (by decide) (by decide)).1⟩

/-! ## C8 : per-article fault isolation, no fatal abort -/

/-- Every supabase call of the sweep fails. -/
def allFaults : Faults := ⟨true, true, true, true, true, [], true, true⟩

/-- Only the per-article recommendation update for article id 5 fails. -/
def exFaults : Faults := ⟨false, false, false, false, false, [5], false, false⟩

/-- **C8**: failures during the sweep are absorbed phase by phase — under any
fault pattern the cron handler still runs all phases and answers 200 with
the per-phase counts (never a fatal abort); even when every call fails the
state is simply untouched; and in the recommendation loop a failing
per-article update is skipped without blocking the remaining articles: any
other selected article still receives its recommendations. -/
theorem c8_sweep_fault_tolerant (f : Faults) (env : Env) (req : Request)
    (now : Int) (arts : List Article) (i : Nat) (a : Article)
    (hpost : req.method = "POST")
    (hsecret : req.cronSecret = some env.cronSecret)
    (hfetch : f.recFetchFail = false)
    (hnd : (idsOf arts).Nodup)
    (h50 : (arts.filter recCond).length ≤ 50)
    (ha : arts[i]? = some a) (hsel : recCond a = true)
    (hskip : a.id ∉ f.recUpdateFailIds) :
    ((handler f env req now arts).1.status = 200
      ∧ (handler f env req now arts).1.success = true
      ∧ (handler f env req now arts).1.stats
          = some (runCleanup f env.smtpConfigured now arts).1)
    ∧ (∀ sm : Bool, sweepState allFaults sm now arts = arts)
    ∧ (∃ b, (generateRecommendations f now arts).2[i]? = some b
        ∧ b.renewal_recommendations ≠ none) := by
  refine ⟨?_, ?_, ?_⟩
  · have hguard : ¬(req.method ≠ "POST"
        ∨ validateCronRequest env req = false) := by
      simp [hpost, validateCronRequest, hsecret]
    unfold handler
    rw [if_neg hguard]
    exact ⟨rfl, rfl, rfl⟩
  · intro sm
    cases sm <;> rfl
  · rw [gen_state_eq f now arts hfetch, List.getElem?_map, ha]
    have hmem : a ∈ arts := List.getElem?_mem ha
    have htake : (arts.filter recCond).take 50 = arts.filter recCond :=
      List.take_of_length_le h50
    have hp : (a.id, recsFor (articleAge now a) a.category a.tags.length)
        ∈ recListOf now arts := by
      unfold recListOf
      exact List.mem_map.mpr ⟨a,
        htake.symm ▸ List.mem_filter.mpr ⟨hmem, hsel⟩, rfl⟩
    exact ⟨_, rfl,
      applyById_recs_filled now (fun p => p.1 ∈ f.recUpdateFailIds)
        (recListOf now arts) a _ hp hskip rfl⟩

/-- Witness for C8: article id 5's recommendation update fails, yet the
handler answers 200 and article id 0 still gets recommendations. -/
theorem c8_sweep_fault_tolerant_witness :
    ((⟨"POST", some "c", none⟩ : Request).method = "POST"
      ∧ (⟨"POST", some "c", none⟩ : Request).cronSecret
          = some (⟨"c", "a", true⟩ : Env).cronSecret
      ∧ exFaults.recFetchFail = false
      ∧ (idsOf [mkC2Article 0, mkC2Article 5]).Nodup
      ∧ ([mkC2Article 0, mkC2Article 5].filter recCond).length ≤ 50
      ∧ [mkC2Article 0, mkC2Article 5][0]? = some (mkC2Article 0)
      ∧ recCond (mkC2Article 0) = true
      ∧ (mkC2Article 0).id ∉ exFaults.recUpdateFailIds)
    ∧ (((handler exFaults ⟨"c", "a", true⟩ ⟨"POST", some "c", none⟩ 86400000000
          [mkC2Article 0, mkC2Article 5]).1.status = 200
        ∧ (handler exFaults ⟨"c", "a", true⟩ ⟨"POST", some "c", none⟩
            86400000000 [mkC2Article 0, mkC2Article 5]).1.success = true
        ∧ (handler exFaults ⟨"c", "a", true⟩ ⟨"POST", some "c", none⟩
            86400000000 [mkC2Article 0, mkC2Article 5]).1.stats
            = some (runCleanup exFaults true 86400000000
                [mkC2Article 0, mkC2Article 5]).1)
      ∧ (∀ sm : Bool,
          sweepState allFaults sm 86400000000 [mkC2Article 0, mkC2Article 5]
            = [mkC2Article 0, mkC2Article 5])
      ∧ (∃ b, (generateRecommendations exFaults 86400000000
            [mkC2Article 0, mkC2Article 5]).2[0]? = some b
          ∧ b.renewal_recommendations ≠ none)) :=
  ⟨⟨rfl, rfl, rfl, by decide, by decide, by decide, by decide, by decide⟩,
    c8_sweep_fault_tolerant exFaults ⟨"c", "a", true⟩ ⟨"POST", some "c", none⟩
      86400000000 [mkC2Article 0, mkC2Article 5] 0 (mkC2Article 0)
      rfl rfl rfl (by decide) (by decide) (by decide) (by decide) (by decide)⟩

/-! ## C9 : manual cleanup endpoint -/

/-- Counterexample to C9 as stated: a POST request carrying the valid admin
token but no cron secret is answered 403 by the manual handler — which
delegates to the cron handler and its shared-secret check — and the cleanup
does not run (the table is returned unchanged, no stats). -/
theorem c9_counterexample :
    manualHandler noFaults ⟨"cron-secret", "admin-token", true⟩
        ⟨"POST", none, some "admin-token"⟩ 0 [exActive]
      = (⟨403, false, none⟩, [exActive]) := by
  unfold manualHandler handler
  decide

/-- **C9 (amended)**: the manual cleanup endpoint authenticates the admin
token but then delegates to the cron handler, which re-checks the cron
shared secret: a POST with the valid admin token runs the cleanup and
answers 200 iff it also carries the valid cron secret; with the admin token
alone it answers 403 and leaves the table unchanged. -/
theorem c9_manual_handler (f : Faults) (env : Env) (req : Request)
    (now : Int) (arts : List Article)
    (hpost : req.method = "POST")
    (hadmin : req.adminToken = some env.adminToken) :
    (req.cronSecret = some env.cronSecret →
      manualHandler f env req now arts
        = (⟨200, true, some (runCleanup f env.smtpConfigured now arts).1⟩,
            sweepState f env.smtpConfigured now arts))
    ∧ (req.cronSecret ≠ some env.cronSecret →
      manualHandler f env req now arts = (⟨403, false, none⟩, arts)) := by
  have hm : ¬(req.method ≠ "POST") := by simp [hpost]
  constructor
  · intro hsec
    unfold manualHandler handler
    rw [if_neg hm, if_neg (by simp [hadmin]),
      if_neg (by simp [hpost, validateCronRequest, hsec])]
    rfl
  · intro hsec
    unfold manualHandler handler
    rw [if_neg hm, if_neg (by simp [hadmin]),
      if_pos (by simp [hpost, validateCronRequest, hsec])]

/-- Witness for C9 (amended): with both the admin token and the cron secret
the manual endpoint runs the cleanup. -/
theorem c9_manual_handler_witness :
    ((⟨"POST", some "c", some "a"⟩ : Request).method = "POST"
      ∧ (⟨"POST", some "c", some "a"⟩ : Request).adminToken
          = some (⟨"c", "a", true⟩ : Env).adminToken)
    ∧ (((⟨"POST", some "c", some "a"⟩ : Request).cronSecret
          = some (⟨"c", "a", true⟩ : Env).cronSecret →
        manualHandler noFaults ⟨"c", "a", true⟩ ⟨"POST", some "c", some "a"⟩
            5 [exActive]
          = (⟨200, true, some (runCleanup noFaults true 5 [exActive]).1⟩,
              sweepState noFaults true 5 [exActive]))
      ∧ ((⟨"POST", some "c", some "a"⟩ : Request).cronSecret
          ≠ some (⟨"c", "a", true⟩ : Env).cronSecret →
        manualHandler noFaults ⟨"c", "a", true⟩ ⟨"POST", some "c", some "a"⟩
            5 [exActive]
          = (⟨403, false, none⟩, [exActive]))) :=
  ⟨⟨rfl, rfl⟩,
    c9_manual_handler noFaults ⟨"c", "a", true⟩ ⟨"POST", some "c", some "a"⟩
      5 [exActive] rfl rfl⟩

/-! ## C10 : per-user-per-day view counting -/

/-- Counterexample to C10 as stated: two authenticated views by the same
user of the same article on the same UTC calendar day — both inside the
day's final second — are both counted. The dedup query's upper bound is
`23:59:59` (i.e. `dayStart + 86399000` ms), so the first record, stamped in
the last second of the day, is not seen by the second view's check: a second
record is inserted and the counter is incremented again. -/
theorem c10_counterexample :
    Int.fdiv 86399200 msPerDay = Int.fdiv 86399800 msPerDay
    ∧ (viewAction 86399800 1 (some 7)
        (viewAction 86399200 1 (some 7) [] [exActive]).1
        (viewAction 86399200 1 (some 7) [] [exActive]).2).2
      = [{ exActive with views := 2 }]
    ∧ (viewAction 86399800 1 (some 7)
        (viewAction 86399200 1 (some 7) [] [exActive]).1
        (viewAction 86399200 1 (some 7) [] [exActive]).2).1
      = [⟨1, 7, 86399200⟩, ⟨1, 7, 86399800⟩] := by
  refine ⟨by decide, ?_, ?_⟩ <;>
  · unfold viewAction incrementViewCount incrementViewsCounter
    decide

/-- **C10 (amended)**: for an authenticated user, a view is suppressed iff an
`article_views` record for the pair already lies in the window
`[00:00:00, 23:59:59)` of the current UTC day (records in the day's final
second do not suppress); otherwise a record is inserted and the article's
counter incremented; an anonymous view increments the counter on every
request and stores no record. -/
theorem c10_view_dedup (now : Int) (articleId userId : Nat)
    (views : List ViewRecord) (arts : List Article) (i : Nat) (a : Article)
    (ha : arts[i]? = some a) :
    ((views.find? (viewedTodayWindow now articleId userId)).isSome →
      viewAction now articleId (some userId) views arts = (views, arts))
    ∧ (views.find? (viewedTodayWindow now articleId userId) = none →
      (viewAction now articleId (some userId) views arts).1
          = views ++ [⟨articleId, userId, now⟩]
      ∧ (a.id = articleId →
          (viewAction now articleId (some userId) views arts).2[i]?
            = some { a with views := a.views + 1 })
      ∧ (a.id ≠ articleId →
          (viewAction now articleId (some userId) views arts).2[i]? = some a))
    ∧ ((viewAction now articleId none views arts).1 = views
      ∧ (a.id = articleId →
          (viewAction now articleId none views arts).2[i]?
            = some { a with views := a.views + 1 })
      ∧ (a.id ≠ articleId →
          (viewAction now articleId none views arts).2[i]? = some a)) := by
  refine ⟨?_, ?_, ?_⟩
  · intro hsome
    cases hf : views.find? (viewedTodayWindow now articleId userId) with
    | none => rw [hf] at hsome; exact absurd hsome (by simp)
    | some v =>
      unfold viewAction incrementViewCount
      simp only [hf]
  · intro hf
    unfold viewAction incrementViewCount
    simp only [hf]
    refine ⟨trivial, ?_, ?_⟩ <;> intro hid
    · unfold incrementViewsCounter
      rw [List.getElem?_map, ha]
      show some (if a.id = articleId then { a with views := a.views + 1 }
        else a) = _
      rw [if_pos hid]
    · unfold incrementViewsCounter
      rw [List.getElem?_map, ha]
      show some (if a.id = articleId then { a with views := a.views + 1 }
        else a) = _
      rw [if_neg hid]
  · refine ⟨rfl, ?_, ?_⟩ <;> intro hid
    · unfold viewAction incrementViewsCounter
      rw [List.getElem?_map, ha]
      show some (if a.id = articleId then { a with views := a.views + 1 }
        else a) = _
      rw [if_pos hid]
    · unfold viewAction incrementViewsCounter
      rw [List.getElem?_map, ha]
      show some (if a.id = articleId then { a with views := a.views + 1 }
        else a) = _
      rw [if_neg hid]

/-- Witness for C10 (amended) at a one-row table. -/
theorem c10_view_dedup_witness :
    ([exActive][0]? = some exActive)
    ∧ ((([⟨1, 7, 1000⟩] :
          List ViewRecord).find? (viewedTodayWindow 2000 1 7)).isSome →
        viewAction 2000 1 (some 7) [⟨1, 7, 1000⟩] [exActive]
          = ([⟨1, 7, 1000⟩], [exActive]))
    ∧ (([⟨1, 7, 1000⟩] :
          List ViewRecord).find? (viewedTodayWindow 2000 1 7) = none →
        (viewAction 2000 1 (some 7) [⟨1, 7, 1000⟩] [exActive]).1
            = [⟨1, 7, 1000⟩] ++ [⟨1, 7, 2000⟩]
        ∧ (exActive.id = 1 →
            (viewAction 2000 1 (some 7) [⟨1, 7, 1000⟩] [exActive]).2[0]?
              = some { exActive with views := exActive.views + 1 })
        ∧ (exActive.id ≠ 1 →
            (viewAction 2000 1 (some 7) [⟨1, 7, 1000⟩] [exActive]).2[0]?
              = some exActive))
    ∧ ((viewAction 2000 1 none [⟨1, 7, 1000⟩] [exActive]).1 = [⟨1, 7, 1000⟩]
        ∧ (exActive.id = 1 →
            (viewAction 2000 1 none [⟨1, 7, 1000⟩] [exActive]).2[0]?
              = some { exActive with views := exActive.views + 1 })
        ∧ (exActive.id ≠ 1 →
            (viewAction 2000 1 none [⟨1, 7, 1000⟩] [exActive]).2[0]?
              = some exActive)) :=
  ⟨by decide,
    c10_view_dedup 2000 1 7 [⟨1, 7, 1000⟩] [exActive] 0 exActive (by decide)⟩

end SuperArticles
